import Mathlib

/-!
Verification development for the container codec layer of
`ai-content-tagging-tools`: a shallow embedding of the ID3v2 audio codec
(`lib/formats/id3-audio.js`) and the EXIF/XMP JPEG codec
(`lib/formats/exif-image.js`), together with theorems settling the
spec's testable properties.

Byte buffers (`Buffer` in Node) are modelled as `List Nat`; JavaScript
strings that only ever hold ASCII/UTF-8 text are modelled by their byte
sequences, so `Buffer.from(s, 'utf8')` and `buf.toString('utf8')` are
identities of the model.  `crypto.createHash('sha256')` is external
library code and is modelled by an executable stand-in function; no
theorem below relies on any property of it beyond determinism.
-/

set_option maxRecDepth 8192

namespace S2P

/-- ASCII byte sequence of a string literal (every literal used by the
codecs is ASCII). -/
def asc (s : String) : List Nat := s.toList.map Char.toNat

/-- `buf.slice(a, b)` for Node buffers: clamped, never throwing. -/
def slice (buf : List Nat) (a b : Nat) : List Nat := (buf.drop a).take (b - a)

/-- `buf.slice(a)` (to the end of the buffer). -/
def sliceFrom (buf : List Nat) (a : Nat) : List Nat := buf.drop a

/-- Model of `crypto.createHash('sha256').update(bytes).digest('hex')`.
SHA-256 itself is Node library code, not code of this repository; the
stand-in below is an executable deterministic function producing 64
ASCII hex digits.  Every theorem in this file uses only that it is a
function (same input, same output), never any cryptographic property. -/
def sha256Hex (bytes : List Nat) : List Nat :=
  let h := bytes.foldl (fun h b => (h * 131 + b + 1) % (2 ^ 256)) 17
  (List.range 64).map (fun i =>
    let d := h / (16 ^ (63 - i)) % 16
    if d < 10 then 48 + d else 87 + d)

/-- Model of `crypto.createSign('SHA256')...sign(privateKey, 'base64')`:
external library code, modelled as a deterministic function of the
signed bytes (the private key is not modelled; no theorem depends on
the value produced). -/
def signModel (bytes : List Nat) : List Nat := sha256Hex bytes

/-! ### JSON model

The codecs serialize the metadata record with `JSON.stringify` and read
it back with `JSON.parse`.  A record is a JavaScript object whose
fields hold strings, booleans, or (for the extracted `signature`) a
Node `Buffer`; insertion order of the fields is observable and is
preserved by `JSON.stringify`, so a record is modelled as an ordered
association list.  `jsonParse` below implements exactly the grammar
fragment `JSON.stringify` emits for such records (strings with the
standard escapes, `true`/`false`), rejecting anything else; the
theorems only ever apply it to serializer output. -/

/-- A JavaScript value stored in a metadata-record field. -/
inductive JVal where
  | s (v : List Nat)
  | b (v : Bool)
  | bytes (v : List Nat)
  deriving Repr, DecidableEq

/-- A metadata record: ordered fields of a JS object. -/
abbrev Record := List (List Nat × JVal)

/-- Property read `obj[k]` (JS object keys are unique; first match). -/
def getField (r : Record) (k : List Nat) : Option JVal :=
  (r.find? (fun p => p.1 = k)).map (·.2)

/-- Property write `obj[k] = v`: overwrites in place (keeping the key's
position, as JS does) or appends a new field. -/
def setField (r : Record) (k : List Nat) (v : JVal) : Record :=
  match r with
  | [] => [(k, v)]
  | (k', v') :: rest =>
    if k' = k then (k, v) :: rest else (k', v') :: setField rest k v

/-- `delete obj[k]`. -/
def delField (r : Record) (k : List Nat) : Record :=
  r.filter (fun p => p.1 ≠ k)

/-- JS truthiness of `obj[k]` (missing field and empty string are falsy;
a `Buffer` is an object, hence truthy). -/
def truthy (v : Option JVal) : Bool :=
  match v with
  | none => false
  | some (.s l) => !l.isEmpty
  | some (.b bv) => bv
  | some (.bytes _) => true

/-- Lowercase hex digit, as `JSON.stringify`'s `\u00XX` escapes use. -/
def hexDigit (d : Nat) : Nat := if d < 10 then 48 + d else 87 + d

/-- `JSON.stringify` escaping of one string byte. -/
def escByte (c : Nat) : List Nat :=
  if c = 34 then [92, 34]
  else if c = 92 then [92, 92]
  else if c = 8 then [92, 98]
  else if c = 9 then [92, 116]
  else if c = 10 then [92, 110]
  else if c = 12 then [92, 102]
  else if c = 13 then [92, 114]
  else if c < 32 then [92, 117, 48, 48, hexDigit (c / 16), hexDigit (c % 16)]
  else [c]

/-- `JSON.stringify` escaping of a whole string body. -/
def escBytes (s : List Nat) : List Nat := s.flatMap escByte

/-- A JSON string literal: `"` body `"`. -/
def quoteStr (s : List Nat) : List Nat := 34 :: (escBytes s ++ [34])

/-- Decimal digits, fuel-driven so that it evaluates by `decide`
(`fuel` only bounds the recursion depth). -/
def natDigitsGo (fuel n : Nat) : List Nat :=
  match fuel with
  | 0 => []
  | fuel + 1 => if n < 10 then [48 + n] else natDigitsGo fuel (n / 10) ++ [48 + n % 10]

/-- Decimal digits of a number (for `Buffer#toJSON`'s byte array). -/
def natDigits (n : Nat) : List Nat := natDigitsGo (n + 1) n

/-- `JSON.stringify` of a single field value.  A `Buffer` serializes via
`Buffer#toJSON` as the object `\x7b"type":"Buffer","data":[..]\x7d`. -/
def jsonStringifyVal (v : JVal) : List Nat :=
  match v with
  | .s s => quoteStr s
  | .b true => asc "true"
  | .b false => asc "false"
  | .bytes bs =>
    [123] ++ quoteStr (asc "type") ++ [58] ++ quoteStr (asc "Buffer") ++ [44] ++
      quoteStr (asc "data") ++ [58, 91] ++
      List.intercalate [44] (bs.map natDigits) ++ [93, 125]

/-- One serialized field: `"key":value`. -/
def serField (p : List Nat × JVal) : List Nat :=
  quoteStr p.1 ++ 58 :: jsonStringifyVal p.2

/-- Comma-separated serialized fields. -/
def serFields (r : Record) : List Nat :=
  match r with
  | [] => []
  | [p] => serField p
  | p :: ps => serField p ++ 44 :: serFields ps

/-- `JSON.stringify(record)`. -/
def jsonStringify (r : Record) : List Nat :=
  123 :: (serFields r ++ [125])

/-- True unless the value is a Node `Buffer` (a record built from
user-supplied fields holds only strings and booleans; `Buffer` values
appear only on the extraction side, grafted by `_extractAIFrames`). -/
def plainVal (v : JVal) : Bool :=
  match v with
  | .bytes _ => false
  | _ => true

/-- All field values of the record are strings or booleans. -/
def plainRecord (r : Record) : Bool := r.all (fun p => plainVal p.2)

/-- UTF-8 bytes of a code point (how a decoded `\uXXXX` char lands in
the byte model; the serializer only ever produces points below 0x20). -/
def cpUtf8 (u : Nat) : List Nat :=
  if u < 128 then [u]
  else if u < 2048 then [192 + u / 64, 128 + u % 64]
  else [224 + u / 4096, 128 + u / 64 % 64, 128 + u % 64]

/-- Value of one hex digit character, if any. -/
def hexVal (c : Nat) : Option Nat :=
  if 48 ≤ c ∧ c ≤ 57 then some (c - 48)
  else if 97 ≤ c ∧ c ≤ 102 then some (c - 87)
  else if 65 ≤ c ∧ c ≤ 70 then some (c - 55)
  else none

/-- Parse a JSON string body (after the opening quote); returns the
decoded bytes and the input remaining after the closing quote. -/
def parseStringBody (l : List Nat) : Option (List Nat × List Nat) :=
  match l with
  | [] => none
  | c :: rest =>
    if c = 34 then some ([], rest)
    else if c = 92 then
      match rest with
      | [] => none
      | e :: rest' =>
        if e = 34 then (parseStringBody rest').map (fun p => (34 :: p.1, p.2))
        else if e = 92 then (parseStringBody rest').map (fun p => (92 :: p.1, p.2))
        else if e = 98 then (parseStringBody rest').map (fun p => (8 :: p.1, p.2))
        else if e = 116 then (parseStringBody rest').map (fun p => (9 :: p.1, p.2))
        else if e = 110 then (parseStringBody rest').map (fun p => (10 :: p.1, p.2))
        else if e = 102 then (parseStringBody rest').map (fun p => (12 :: p.1, p.2))
        else if e = 114 then (parseStringBody rest').map (fun p => (13 :: p.1, p.2))
        else if e = 117 then
          match rest' with
          | h1 :: h2 :: h3 :: h4 :: rest'' =>
            match hexVal h1, hexVal h2, hexVal h3, hexVal h4 with
            | some d1, some d2, some d3, some d4 =>
              (parseStringBody rest'').map
                (fun p => (cpUtf8 (d1 * 4096 + d2 * 256 + d3 * 16 + d4) ++ p.1, p.2))
            | _, _, _, _ => none
          | _ => none
        else none
    else (parseStringBody rest).map (fun p => (c :: p.1, p.2))

/-- Parse one JSON value of the fragment the serializer emits. -/
def parseVal (l : List Nat) : Option (JVal × List Nat) :=
  match l with
  | [] => none
  | c :: rest =>
    if c = 34 then (parseStringBody rest).map (fun p => (JVal.s p.1, p.2))
    else if l.take 4 = asc "true" then some (.b true, l.drop 4)
    else if l.take 5 = asc "false" then some (.b false, l.drop 5)
    else none

/-- Parse a comma-separated field list followed by the closing brace.
The fuel argument only bounds the recursion depth (one unit per field);
`jsonParse` supplies the input length, which always suffices. -/
def parseFields (fuel : Nat) (l : List Nat) : Option (Record × List Nat) :=
  match fuel with
  | 0 => none
  | fuel + 1 =>
    match l with
    | 34 :: rest =>
      match parseStringBody rest with
      | none => none
      | some (k, r1) =>
        match r1 with
        | 58 :: r2 =>
          match parseVal r2 with
          | none => none
          | some (v, r3) =>
            match r3 with
            | 44 :: r4 =>
              match parseFields fuel r4 with
              | none => none
              | some (fs, r5) => some ((k, v) :: fs, r5)
            | 125 :: r4 => some ([(k, v)], r4)
            | _ => none
        | _ => none
    | _ => none

/-- `JSON.parse`, on the grammar fragment `jsonStringify` emits (an
object of string/boolean fields, whole input consumed). -/
def jsonParse (l : List Nat) : Option Record :=
  match l with
  | [123, 125] => some []
  | 123 :: rest =>
    match parseFields rest.length rest with
    | some (fs, []) => some fs
    | _ => none
  | _ => none

namespace ID3

/-- `_readSynchsafeInt(buffer)`: `(b[0] << 21) | (b[1] << 14) | (b[2] << 7) | b[3]`.
Indexing past the end of a JS buffer yields `undefined`, which the
shift coerces to 0; `getD _ 0` models that. -/
def readSynchsafeInt (b : List Nat) : Nat :=
  (b.getD 0 0) <<< 21 ||| (b.getD 1 0) <<< 14 ||| (b.getD 2 0) <<< 7 ||| b.getD 3 0

/-- `_writeSynchsafeInt(buffer, offset, value)`, as the 4 bytes written.
JS `>>>` and `&` first coerce the operand to an unsigned 32-bit value,
hence the `% 2^32`. -/
def writeSynchsafeInt (value : Nat) : List Nat :=
  let w := value % 4294967296
  [(w >>> 21) &&& 127, (w >>> 14) &&& 127, (w >>> 7) &&& 127, w &&& 127]

/-- An ID3v2 frame as the codec keeps it in memory: `id`, declared
`size`, `flags` and payload `data`, all as raw bytes (the JS code keeps
`id` as a string decoded from and re-encoded to these bytes, which is
the identity for the ASCII ids the format uses). -/
structure Frame where
  id : List Nat
  size : Nat
  flags : List Nat
  data : List Nat
  deriving Repr, DecidableEq

/-- Result object of `_parseID3Header`. -/
structure ID3Info where
  hasID3 : Bool
  tagSize : Nat
  majorVersion : Nat
  minorVersion : Nat
  flags : Nat
  /-- `existingFrames` of the parsed header object.  The source returns
  the literal `[]` on every path of `_parseID3Header`. -/
  existingFrames : List Frame
  deriving Repr, DecidableEq

/-- `_parseID3Header(audioBuffer)`. -/
def parseID3Header (buf : List Nat) : ID3Info :=
  if buf.length < 10 then
    { hasID3 := false, tagSize := 0, majorVersion := 0, minorVersion := 0
      flags := 0, existingFrames := [] }
  else if slice buf 0 3 ≠ asc "ID3" then
    { hasID3 := false, tagSize := 0, majorVersion := 0, minorVersion := 0
      flags := 0, existingFrames := [] }
  else
    { hasID3 := true
      tagSize := readSynchsafeInt (slice buf 6 10) + 10
      majorVersion := buf.getD 3 0
      minorVersion := buf.getD 4 0
      flags := buf.getD 5 0
      existingFrames := [] }

/-- `buffer.readUInt32BE(0)` on a (possibly clamped) 4-byte slice; Node
throws a range error when fewer than 4 bytes are available. -/
def readUInt32BE (b : List Nat) : Except String Nat :=
  if b.length < 4 then .error "RangeError"
  else .ok (b.getD 0 0 * 16777216 + b.getD 1 0 * 65536 + b.getD 2 0 * 256 + b.getD 3 0)

/-- `_readFrameSize(buffer, majorVersion)`. -/
def readFrameSize (b : List Nat) (majorVersion : Nat) : Except String Nat :=
  if majorVersion ≥ 4 then .ok (readSynchsafeInt b) else readUInt32BE b

/-- Body of one iteration of the `_parseID3Frames` loop; fuel-driven so
that the function evaluates by `decide` (the fuel only bounds the
recursion depth; `parseFramesLoop` supplies `tagEnd - offset`, which
always suffices since each iteration advances the offset by at least
11; `parseFramesLoop_eq` below recovers the source-shaped recurrence). -/
def parseFramesLoopGo (fuel : Nat) (buf : List Nat) (majorVersion tagEnd offset : Nat) :
    Except String (List Frame) :=
  match fuel with
  | 0 => .ok []
  | fuel + 1 =>
    if offset < tagEnd - 4 then
      let frameId := slice buf offset (offset + 4)
      if frameId = [0, 0, 0, 0] then .ok []
      else
        match readFrameSize (slice buf (offset + 4) (offset + 8)) majorVersion with
        | .error e => .error e
        | .ok frameSize =>
          let frameFlags := slice buf (offset + 8) (offset + 10)
          if frameSize = 0 ∨ offset + 10 + frameSize > tagEnd then .ok []
          else
            match parseFramesLoopGo fuel buf majorVersion tagEnd (offset + 10 + frameSize) with
            | .error e => .error e
            | .ok rest =>
              .ok (⟨frameId, frameSize, frameFlags,
                    slice buf (offset + 10) (offset + 10 + frameSize)⟩ :: rest)
    else .ok []

/-- The frame-walking loop of `_parseID3Frames`, starting at `offset`. -/
def parseFramesLoop (buf : List Nat) (majorVersion tagEnd offset : Nat) :
    Except String (List Frame) :=
  parseFramesLoopGo (tagEnd - offset) buf majorVersion tagEnd offset

/-- `_parseID3Frames(audioBuffer, id3Info)`. -/
def parseID3Frames (buf : List Nat) (info : ID3Info) : Except String (List Frame) :=
  parseFramesLoop buf info.majorVersion info.tagSize 10

/-- Result of `_parseTextFrame` (the `encoding` byte is also returned by
the source but never consumed anywhere). -/
structure TextData where
  description : List Nat
  value : List Nat
  deriving Repr, DecidableEq

/-- `_parseTextFrame(data)`: split at the first NUL after the encoding
byte. -/
def parseTextFrame (data : List Nat) : TextData :=
  let textData := data.drop 1
  match textData.findIdx? (· = 0) with
  | none => ⟨[], textData⟩
  | some i => ⟨textData.take i, textData.drop (i + 1)⟩

/-- Result of `_parsePrivateFrame`. -/
structure PrivData where
  identifier : List Nat
  data : List Nat
  deriving Repr, DecidableEq

/-- `_parsePrivateFrame(data)`: split at the first NUL. -/
def parsePrivateFrame (data : List Nat) : PrivData :=
  match data.findIdx? (· = 0) with
  | none => ⟨[], data⟩
  | some i => ⟨data.take i, data.drop (i + 1)⟩

/-- `_createTextFrame(frameId, description, value)` (encoding byte 0x03,
UTF-8).  The source's frame object has no `flags` property; `_buildFrame`
always writes zero flag bytes. -/
def createTextFrame (frameId description value : List Nat) : Frame :=
  let data := [3] ++ description ++ [0] ++ value
  { id := frameId, size := data.length, flags := [], data := data }

/-- `_createPrivateFrame(frameId, identifier, privateData)`. -/
def createPrivateFrame (frameId identifier privateData : List Nat) : Frame :=
  let data := identifier ++ [0] ++ privateData
  { id := frameId, size := data.length, flags := [], data := data }

/-- `_isAIMetadataFrame(frame)`. -/
def isAIMetadataFrame (f : Frame) : Bool :=
  if f.id = asc "TXXX" then
    let td := parseTextFrame f.data
    td.description = asc "AI_METADATA" ∨ td.description = asc "AI_CHECKSUM"
  else if f.id = asc "PRIV" then
    (parsePrivateFrame f.data).identifier = asc "AI_SIGNATURE"
  else false

/-- `_writeFrameSize(buffer, offset, size)`: the handler's `version`
option is the constructor default `'2.4'`, so the synchsafe branch. -/
def writeFrameSize (size : Nat) : List Nat := writeSynchsafeInt size

/-- `_buildFrame(frame)`: 10-byte header (id written into a
zero-initialized buffer, at most 4 bytes; synchsafe size; two zero flag
bytes) followed by the payload. -/
def buildFrame (f : Frame) : List Nat :=
  let idBytes := f.id.take 4
  idBytes ++ List.replicate (4 - idBytes.length) 0 ++
    writeFrameSize f.data.length ++ [0, 0] ++ f.data

/-- `_buildID3Tag(frames)`: v2.4 header, frames, 1024 bytes of padding. -/
def buildID3Tag (frames : List Frame) : List Nat :=
  let framesData := frames.map buildFrame
  let totalFramesSize := (framesData.map List.length).sum
  let totalSize := totalFramesSize + 1024
  asc "ID3" ++ [4, 0, 0] ++ writeSynchsafeInt totalSize ++
    framesData.flatten ++ List.replicate 1024 0

/-- The in-memory frame that re-parsing a frame built by `_buildFrame`
yields: same id and data, declared size equal to the data length, and
the two zero flag bytes the builder writes. -/
def normFrame (f : Frame) : Frame :=
  { id := f.id, size := f.data.length, flags := [0, 0], data := f.data }

/-- Well-formedness of an in-memory frame under which `_buildFrame`
output re-parses to `normFrame`: a 4-byte non-padding id, nonempty
payload, and a payload length representable as a synchsafe integer. -/
def frameWF (f : Frame) : Prop :=
  f.id.length = 4 ∧ f.id ≠ [0, 0, 0, 0] ∧ 1 ≤ f.data.length ∧ f.data.length < 268435456

instance (f : Frame) : Decidable (frameWF f) := by unfold frameWF; infer_instance

/-- Handler construction options (`preserveExisting` defaults to true;
`version` is fixed at the default `'2.4'` and `encoding` is never read). -/
structure Options where
  preserveExisting : Bool := true
  deriving Repr, DecidableEq

/-- Per-call embedding options: `includeChecksum !== false`, and whether
a `privateKey` was supplied (the key material itself is external). -/
structure EmbedOpts where
  includeChecksum : Bool := true
  privateKey : Bool := false
  deriving Repr, DecidableEq

/-- `_validateMetadata(metadata)` (the `id3-audio.js` copy; `exif-image.js`
contains the identical function). -/
def validateMetadata (m : Record) : Except String Unit :=
  if ¬truthy (getField m (asc "contentType")) then
    .error "Missing required field: contentType"
  else if ¬truthy (getField m (asc "origin")) then
    .error "Missing required field: origin"
  else if ¬truthy (getField m (asc "created")) then
    .error "Missing required field: created"
  else .ok ()

/-- `_createID3Tag(metadata, existingFrames, options)`.  The signature
frame's contents come from external crypto (`_createSignature`),
modelled by `signModel`. -/
def createID3Tag (hOpts : Options) (metadata : Record)
    (existingFrames : List Frame) (opts : EmbedOpts) : List Nat :=
  let preserved :=
    if hOpts.preserveExisting then existingFrames.filter (fun f => !isAIMetadataFrame f)
    else []
  let metadataFrame := createTextFrame (asc "TXXX") (asc "AI_METADATA") (jsonStringify metadata)
  let frames1 := preserved ++ [metadataFrame]
  let frames2 :=
    if opts.includeChecksum then
      frames1 ++ [createTextFrame (asc "TXXX") (asc "AI_CHECKSUM")
        (sha256Hex (jsonStringify metadata))]
    else frames1
  let frames3 :=
    if opts.privateKey then
      frames2 ++ [createPrivateFrame (asc "PRIV") (asc "AI_SIGNATURE")
        (signModel (jsonStringify metadata))]
    else frames2
  buildID3Tag frames3

/-- `embedMetadata(audioData, metadata, options)` on a buffer input. -/
def embedMetadata (hOpts : Options) (buf : List Nat) (metadata : Record)
    (opts : EmbedOpts) : Except String (List Nat) :=
  match validateMetadata metadata with
  | .error e => .error ("Failed to embed ID3 metadata: " ++ e)
  | .ok _ =>
    let id3Info := parseID3Header buf
    let newTag := createID3Tag hOpts metadata id3Info.existingFrames opts
    .ok (newTag ++ buf.drop id3Info.tagSize)

/-- The frame scan of `_extractAIFrames`: the source iterates with three
mutable slots (`metadata`, `checksum`, `signature`); a later matching
frame overwrites an earlier one. -/
def extractLoop (frames : List Frame) (m : Option Record)
    (c sg : Option (List Nat)) : Option Record × Option (List Nat) × Option (List Nat) :=
  match frames with
  | [] => (m, c, sg)
  | f :: fs =>
    if f.id = asc "TXXX" then
      let td := parseTextFrame f.data
      if td.description = asc "AI_METADATA" then
        match jsonParse td.value with
        | some r => extractLoop fs (some r) c sg
        | none => extractLoop fs m c sg
      else if td.description = asc "AI_CHECKSUM" then
        extractLoop fs m (some td.value) sg
      else extractLoop fs m c sg
    else if f.id = asc "PRIV" then
      let pd := parsePrivateFrame f.data
      if pd.identifier = asc "AI_SIGNATURE" then extractLoop fs m c (some pd.data)
      else extractLoop fs m c sg
    else extractLoop fs m c sg

/-- `_extractAIFrames(frames)`: on success, the parsed record with the
`checksum` string and `signature` buffer grafted on. -/
def extractAIFrames (frames : List Frame) : Option Record :=
  match extractLoop frames none none none with
  | (some m, c, sg) =>
    let m1 := match c with
      | some cv => setField m (asc "checksum") (.s cv)
      | none => m
    let m2 := match sg with
      | some sv => setField m1 (asc "signature") (.bytes sv)
      | none => m1
    some m2
  | _ => none

/-- `_verifyChecksum(metadata, audioBuffer)`.  Note that the source
never reads `audioBuffer`: the comparison is between the stored checksum
and the hash of the record's own JSON serialization. -/
def verifyChecksum (metadata : Record) (_audioBuffer : List Nat) : Bool :=
  let copy := delField (delField (delField metadata (asc "checksum"))
    (asc "_verified")) (asc "_signatureValid")
  let calculated := sha256Hex (jsonStringify copy)
  match getField metadata (asc "checksum") with
  | some (.s c) => calculated = c
  | _ => false

/-- `_verifySignature(metadata)`: the source is a stub returning true. -/
def verifySignature (_metadata : Record) : Bool := true

/-- `extractMetadata(audioData)` on a buffer input. -/
def extractMetadata (buf : List Nat) : Except String (Option Record) :=
  let id3Info := parseID3Header buf
  if !id3Info.hasID3 then .ok none
  else
    match parseID3Frames buf id3Info with
    | .error e => .error ("Failed to extract ID3 metadata: " ++ e)
    | .ok frames =>
      match extractAIFrames frames with
      | none => .ok none
      | some ai =>
        let ai1 :=
          if truthy (getField ai (asc "checksum")) then
            setField ai (asc "_verified") (.b (verifyChecksum ai buf))
          else ai
        let ai2 :=
          if truthy (getField ai1 (asc "signature")) then
            setField ai1 (asc "_signatureValid") (.b (verifySignature ai1))
          else ai1
        .ok (some ai2)

/-- `removeMetadata(audioData)` on a buffer input. -/
def removeMetadata (buf : List Nat) : Except String (List Nat) :=
  let id3Info := parseID3Header buf
  if !id3Info.hasID3 then .ok buf
  else
    match parseID3Frames buf id3Info with
    | .error e => .error ("Failed to remove ID3 metadata: " ++ e)
    | .ok frames =>
      let filteredFrames := frames.filter (fun f => !isAIMetadataFrame f)
      if filteredFrames.isEmpty then .ok (buf.drop id3Info.tagSize)
      else .ok (buildID3Tag filteredFrames ++ buf.drop id3Info.tagSize)

/-- `hasMetadata(audioData)` on a buffer input (`_parseID3Header` cannot
throw, so the catch branch is dead). -/
def hasMetadata (buf : List Nat) : Bool := (parseID3Header buf).hasID3

end ID3

/-- `l.startsWith(p)` / prefix test, byte-level. -/
def startBytes (p l : List Nat) : Bool := l.take p.length = p

/-- `l.includes(pat)` for an ASCII pattern, byte-level (ASCII bytes
decode to themselves under Node's lenient UTF-8 decoding, so byte-level
search agrees with the source's string-level `includes`). -/
def containsBytes (pat l : List Nat) : Bool :=
  startBytes pat l ||
    match l with
    | [] => false
    | _ :: rest => containsBytes pat rest

/-- Work loop of `replaceAll`; the fuel argument only bounds the
recursion depth (one unit per consumed byte), keeping the definition
structural so it evaluates by `decide`. -/
def replaceAllGo (fuel : Nat) (pat rep l : List Nat) : List Nat :=
  match fuel with
  | 0 => l
  | fuel + 1 =>
    match l with
    | [] => []
    | c :: rest =>
      if pat ≠ [] ∧ (c :: rest).take pat.length = pat then
        rep ++ replaceAllGo fuel pat rep ((c :: rest).drop pat.length)
      else c :: replaceAllGo fuel pat rep rest

/-- `String.prototype.replace` with a global pattern: left-to-right,
non-overlapping replacement. -/
def replaceAll (pat rep l : List Nat) : List Nat := replaceAllGo l.length pat rep l

/-- `buf.toString('ascii')`: Node's `'ascii'` decoding keeps only the
low 7 bits of each byte. -/
def asciiMask (l : List Nat) : List Nat := l.map (· % 128)

namespace EXIF

/-- Result of `_detectImageFormat`. -/
inductive ImgFormat where
  | jpeg | png | tiff | unknown
  deriving Repr, DecidableEq

/-- `_detectImageFormat(imageBuffer)`. -/
def detectImageFormat (buf : List Nat) : ImgFormat :=
  if buf.length < 4 then .unknown
  else if buf.getD 0 0 = 255 ∧ buf.getD 1 0 = 216 ∧ buf.getD 2 0 = 255 then .jpeg
  else if buf.getD 0 0 = 137 ∧ buf.getD 1 0 = 80 ∧ buf.getD 2 0 = 78 ∧ buf.getD 3 0 = 71 then
    .png
  else if (buf.getD 0 0 = 73 ∧ buf.getD 1 0 = 73) ∨ (buf.getD 0 0 = 77 ∧ buf.getD 1 0 = 77) then
    .tiff
  else .unknown

/-- `buf.readUInt16BE(offset)`; Node throws a range error when fewer
than two bytes are available at `offset`. -/
def readUInt16BE (buf : List Nat) (offset : Nat) : Except String Nat :=
  if offset + 2 ≤ buf.length then .ok (buf.getD offset 0 * 256 + buf.getD (offset + 1) 0)
  else .error "RangeError"

/-- Body of one iteration of the `_parseJPEGSegments` loop; fuel-driven
so that the function evaluates by `decide` (the fuel only bounds the
recursion depth; `segLoop` supplies `buf.length - offset`, which always
suffices since each iteration advances the offset by at least 2;
`segLoop_eq` below recovers the source-shaped recurrence). -/
def segLoopGo (fuel : Nat) (buf : List Nat) (offset : Nat) :
    Except String (List (List Nat)) :=
  match fuel with
  | 0 => .ok []
  | fuel + 1 =>
    if offset < buf.length then
      if buf.getD offset 0 ≠ 255 then .ok []
      else
        match readUInt16BE buf offset with
        | .error e => .error e
        | .ok marker =>
          if marker = 65498 then .ok [buf.drop offset]
          else
            match readUInt16BE buf (offset + 2) with
            | .error e => .error e
            | .ok len =>
              let segmentEnd := offset + 2 + len
              if segmentEnd > buf.length then .ok []
              else
                match segLoopGo fuel buf segmentEnd with
                | .error e => .error e
                | .ok rest => .ok (slice buf offset segmentEnd :: rest)
    else .ok []

/-- The marker-walking loop of `_parseJPEGSegments`, from `offset`. -/
def segLoop (buf : List Nat) (offset : Nat) : Except String (List (List Nat)) :=
  segLoopGo (buf.length - offset) buf offset

/-- `_parseJPEGSegments(imageBuffer)`. -/
def parseJPEGSegments (buf : List Nat) : Except String (List (List Nat)) :=
  match readUInt16BE buf 0 with
  | .error e => .error e
  | .ok soi =>
    if soi ≠ 65496 then .error "Invalid JPEG file: missing SOI marker"
    else
      match segLoop buf 2 with
      | .error e => .error e
      | .ok segs => .ok (slice buf 0 2 :: segs)

/-- The APP1 identifier for XMP payloads, `http://ns.adobe.com/xap/1.0/\0`. -/
def xmpIdentifier : List Nat := asc "http://ns.adobe.com/xap/1.0/" ++ [0]

/-- The APP1 identifier for EXIF payloads, `Exif\0\0`. -/
def exifIdentifier : List Nat := asc "Exif" ++ [0, 0]

/-- `_createAPP1Segment(data, type)`; `writeUInt16BE` throws when the
length does not fit in 16 bits. -/
def createAPP1Segment (data : List Nat) (isXMP : Bool) : Except String (List Nat) :=
  let identifier := if isXMP then xmpIdentifier else exifIdentifier
  let totalLength := 2 + 2 + identifier.length + data.length
  if totalLength - 2 > 65535 then .error "RangeError"
  else .ok ([255, 225] ++ [(totalLength - 2) / 256, (totalLength - 2) % 256] ++
    identifier ++ data)

/-- `_isAPP1Segment(segment)`. -/
def isAPP1Segment (s : List Nat) : Bool :=
  s.length ≥ 2 ∧ s.getD 0 0 * 256 + s.getD 1 0 = 65505

/-- `_isMetadataSegment(segment)`: the source compares the 16-byte
`slice(4, 20)` (decoded as `'ascii'`) against the two identifiers; the
28-character XMP identifier can never be a prefix of a 16-character
string, so only the `Exif` test can succeed. -/
def isMetadataSegment (s : List Nat) : Bool :=
  isAPP1Segment s &&
    (let identifier := asciiMask (slice s 4 20)
     startBytes (asc "Exif") identifier ||
       startBytes (asc "http://ns.adobe.com/xap/1.0/") identifier)

/-- The XMP namespace constant `AI_XMP_NAMESPACE`. -/
def aiXmpNamespace : List Nat := asc "http://aicontenttagging.org/schemas/1.0/"

/-- `_containsAIMetadata(segment)`. -/
def containsAIMetadata (s : List Nat) : Bool :=
  isMetadataSegment s &&
    (containsBytes aiXmpNamespace s || containsBytes (asc "AI_METADATA") s ||
      containsBytes (asc "\"contentType\"") s)

/-- `_extractXMPFromSegment(segment)`. -/
def extractXMPFromSegment (s : List Nat) : Option (List Nat) :=
  if asciiMask (slice s 4 (4 + 29)) = xmpIdentifier then some (s.drop (4 + 29))
  else none

/-- `_extractEXIFFromSegment(segment)`. -/
def extractEXIFFromSegment (s : List Nat) : Option (List Nat) :=
  if asciiMask (slice s 4 (4 + 6)) = exifIdentifier then some (s.drop (4 + 6))
  else none

/-- `_escapeXML(text)`. -/
def escapeXML (t : List Nat) : List Nat :=
  replaceAll [39] (asc "&apos;")
    (replaceAll [34] (asc "&quot;")
      (replaceAll [62] (asc "&gt;")
        (replaceAll [60] (asc "&lt;")
          (replaceAll [38] (asc "&amp;") t))))

/-- `_unescapeXML(text)` (note the source replaces `&amp;` first). -/
def unescapeXML (t : List Nat) : List Nat :=
  replaceAll (asc "&apos;") [39]
    (replaceAll (asc "&quot;") [34]
      (replaceAll (asc "&gt;") [62]
        (replaceAll (asc "&lt;") [60]
          (replaceAll (asc "&amp;") [38] t))))

/-- `_escapeXML` applied to a record field: the source calls
`.replace` on the raw value, which is a `TypeError` unless the value is
a string. -/
def escXMLVal (v : Option JVal) : Except String (List Nat) :=
  match v with
  | some (.s s) => .ok (escapeXML s)
  | _ => .error "TypeError"

/-- One `<aicontag:name>content</aicontag:name>` element of the XMP
template. -/
def xmpElem (name : String) (content : List Nat) : List Nat :=
  asc ("<aicontag:" ++ name ++ ">") ++ content ++ asc ("</aicontag:" ++ name ++ ">")

/-- An optional template line `$\x7bmetadata.author ? `...` : ''\x7d`. -/
def xmpOptElem (md : Record) (key name : String) : Except String (List Nat) :=
  if truthy (getField md (asc key)) then
    match escXMLVal (getField md (asc key)) with
    | .error e => .error e
    | .ok v => .ok (xmpElem name v)
  else .ok []

/-- `_createChecksum(metadata)`. -/
def createChecksum (md : Record) : List Nat := sha256Hex (jsonStringify md)

/-- `_createXMPData(metadata, options)`: the RDF/XML template with the
escaped field values, the JSON-serialized record, and (by default) the
checksum element interpolated. -/
def createXMPData (md : Record) (opts : ID3.EmbedOpts) : Except String (List Nat) :=
  match escXMLVal (getField md (asc "contentType")) with
  | .error e => .error e
  | .ok ct =>
  match escXMLVal (getField md (asc "origin")) with
  | .error e => .error e
  | .ok og =>
  match escXMLVal (getField md (asc "created")) with
  | .error e => .error e
  | .ok cr =>
  match xmpOptElem md "author" "author" with
  | .error e => .error e
  | .ok authorPart =>
  match xmpOptElem md "description" "description" with
  | .error e => .error e
  | .ok descriptionPart =>
  match xmpOptElem md "license" "license" with
  | .error e => .error e
  | .ok licensePart =>
    let checksumPart :=
      if opts.includeChecksum then xmpElem "checksum" (createChecksum md) else []
    .ok (asc "<?xml version=\"1.0\" encoding=\"UTF-8\"?>\n<x:xmpmeta xmlns:x=\"adobe:ns:meta/\" x:xmptk=\"AI Content Tagging Tools 1.0\">\n  <rdf:RDF xmlns:rdf=\"http://www.w3.org/1999/02/22-rdf-syntax-ns#\">\n    <rdf:Description rdf:about=\"\" xmlns:aicontag=\"http://aicontenttagging.org/schemas/1.0/\">\n      " ++
      xmpElem "contentType" ct ++ asc "\n      " ++
      xmpElem "origin" og ++ asc "\n      " ++
      xmpElem "created" cr ++ asc "\n      " ++
      authorPart ++ asc "\n      " ++
      descriptionPart ++ asc "\n      " ++
      licensePart ++ asc "\n      " ++
      xmpElem "metadata" (escapeXML (jsonStringify md)) ++ asc "\n      " ++
      checksumPart ++
      asc "\n    </rdf:Description>\n  </rdf:RDF>\n</x:xmpmeta>")

/-- UTF-16LE encoding of `Buffer.from(json, 'utf16le')`, exact for the
ASCII text involved. -/
def utf16leBytes (l : List Nat) : List Nat := l.flatMap (fun b => [b, 0])

/-- `_createEXIFData(metadata, options)`. -/
def createEXIFData (md : Record) : List Nat :=
  asc "UNICODE" ++ [0] ++ utf16leBytes (jsonStringify md)

/-- `buf.toString('utf16le')` in the byte model: little-endian pairs
decoded to code points, re-encoded as the model's UTF-8 bytes; a
trailing odd byte is dropped, as Node does. -/
def utf16leDecode (l : List Nat) : List Nat :=
  match l with
  | lo :: hi :: rest => cpUtf8 (lo + 256 * hi) ++ utf16leDecode rest
  | _ => []

/-- First `open …` occurrence that has a `close` after it, with the
(lazy, dot-matches-newline) content between — the semantics of the
source's `match(new RegExp(`<p:metadata>(.*?)</p:metadata>`, 's'))`. -/
def firstTo (cl l : List Nat) : Option (List Nat) :=
  if startBytes cl l then some []
  else
    match l with
    | [] => none
    | c :: rest => (firstTo cl rest).map (c :: ·)

def betweenFirst (op cl l : List Nat) : Option (List Nat) :=
  match l with
  | [] => none
  | _ :: rest =>
    if startBytes op l then
      match firstTo cl (l.drop op.length) with
      | some content => some content
      | none => betweenFirst op cl rest
    else betweenFirst op cl rest

/-- `_parseXMPData(xmpData)`. -/
def parseXMPData (xmp : List Nat) : Option Record :=
  match betweenFirst (asc "<aicontag:metadata>") (asc "</aicontag:metadata>") xmp with
  | none => none
  | some content => jsonParse (unescapeXML content)

/-- `_parseEXIFData(exifData)`. -/
def parseEXIFData (exif : List Nat) : Option Record :=
  if asciiMask (slice exif 0 8) = asc "UNICODE" ++ [0] then
    jsonParse (utf16leDecode (exif.drop 8))
  else none

/-- Handler construction options (`compressionQuality` is never read). -/
inductive PreferredFormat where
  | xmp | exif | both
  deriving Repr, DecidableEq

structure Options where
  preferredFormat : PreferredFormat := .xmp
  preserveExisting : Bool := true
  deriving Repr, DecidableEq

/-- `_embedJPEGMetadata(imageBuffer, metadata, options)`. -/
def embedJPEGMetadata (hOpts : Options) (buf : List Nat) (md : Record)
    (opts : ID3.EmbedOpts) : Except String (List Nat) :=
  match parseJPEGSegments buf with
  | .error e => .error e
  | .ok segments =>
    match createXMPData md opts with
    | .error e => .error e
    | .ok xmpData =>
      match createAPP1Segment xmpData true with
      | .error e => .error e
      | .ok xmpSegment =>
        let exifWanted := hOpts.preferredFormat = .exif ∨ hOpts.preferredFormat = .both
        match (if exifWanted then (createAPP1Segment (createEXIFData md) false).map some
               else .ok none) with
        | .error e => .error e
        | .ok exifSegment =>
          match segments with
          | [] => .error "TypeError"
          | s0 :: rest =>
            .ok (s0 ++ (exifSegment.getD []) ++ xmpSegment ++
              (rest.filter (fun s =>
                hOpts.preserveExisting || !isMetadataSegment s)).flatten)

/-- The segment scan of `_extractJPEGMetadata` (first hit wins; a
segment whose XMP payload fails to parse falls through to the EXIF
check, then to later segments). -/
def extractSegLoop (segs : List (List Nat)) : Option Record :=
  match segs with
  | [] => none
  | s :: rest =>
    if isAPP1Segment s then
      match (match extractXMPFromSegment s with
             | some x => parseXMPData x
             | none => none) with
      | some m => some m
      | none =>
        match (match extractEXIFFromSegment s with
               | some e => parseEXIFData e
               | none => none) with
        | some m => some m
        | none => extractSegLoop rest
    else extractSegLoop rest

/-- `_extractJPEGMetadata(imageBuffer)`. -/
def extractJPEGMetadata (buf : List Nat) : Except String (Option Record) :=
  match parseJPEGSegments buf with
  | .error e => .error e
  | .ok segs => .ok (extractSegLoop segs)

/-- `_removeJPEGMetadata(imageBuffer)`. -/
def removeJPEGMetadata (buf : List Nat) : Except String (List Nat) :=
  match parseJPEGSegments buf with
  | .error e => .error e
  | .ok segs =>
    .ok (segs.filter (fun s => !(isMetadataSegment s && containsAIMetadata s))).flatten

/-- `_validateMetadata(metadata)` — `exif-image.js` contains a copy
identical to the `id3-audio.js` one. -/
def validateMetadata (m : Record) : Except String Unit := ID3.validateMetadata m

/-- `_verifyChecksum(metadata, imageBuffer)` — identical copy of the
`id3-audio.js` function (the buffer argument is likewise unread). -/
def verifyChecksum (metadata : Record) (imageBuffer : List Nat) : Bool :=
  ID3.verifyChecksum metadata imageBuffer

/-- `embedMetadata(imageData, metadata, options)` on a buffer input. -/
def embedMetadata (hOpts : Options) (buf : List Nat) (md : Record)
    (opts : ID3.EmbedOpts) : Except String (List Nat) :=
  match validateMetadata md with
  | .error e => .error ("Failed to embed image metadata: " ++ e)
  | .ok _ =>
    match detectImageFormat buf with
    | .jpeg =>
      match embedJPEGMetadata hOpts buf md opts with
      | .error e => .error ("Failed to embed image metadata: " ++ e)
      | .ok out => .ok out
    | .tiff => .error "Failed to embed image metadata: TIFF metadata embedding not yet implemented"
    | .png => .error "Failed to embed image metadata: PNG metadata embedding not yet implemented"
    | .unknown => .error "Failed to embed image metadata: Unsupported image format: unknown"

/-- `extractMetadata(imageData)` on a buffer input. -/
def extractMetadata (buf : List Nat) : Except String (Option Record) :=
  match (match detectImageFormat buf with
         | .jpeg => extractJPEGMetadata buf
         | .tiff => .error "TIFF metadata extraction not yet implemented"
         | .png => .error "PNG metadata extraction not yet implemented"
         | .unknown => .ok none) with
  | .error e => .error ("Failed to extract image metadata: " ++ e)
  | .ok none => .ok none
  | .ok (some m) =>
    let m1 :=
      if truthy (getField m (asc "checksum")) then
        setField m (asc "_verified") (.b (verifyChecksum m buf))
      else m
    let m2 :=
      if truthy (getField m1 (asc "signature")) then
        setField m1 (asc "_signatureValid") (.b true)
      else m1
    .ok (some m2)

/-- `hasMetadata(imageData)`: true exactly when `extractMetadata`
returns a record (errors are caught and become false). -/
def hasMetadata (buf : List Nat) : Bool :=
  match extractMetadata buf with
  | .ok (some _) => true
  | _ => false

/-- `removeMetadata(imageData)` on a buffer input (unsupported and
unknown formats are returned unchanged). -/
def removeMetadata (buf : List Nat) : Except String (List Nat) :=
  match detectImageFormat buf with
  | .jpeg =>
    match removeJPEGMetadata buf with
    | .error e => .error ("Failed to remove image metadata: " ++ e)
    | .ok out => .ok out
  | .tiff => .ok buf
  | .png => .ok buf
  | .unknown => .ok buf

end EXIF

/-- Bytes on which `_escapeXML` acts only through the quote rule: none
of `& < > '` (the double quote `"` is allowed — it escapes to `&quot;`
and un-escapes cleanly, unlike pre-escaped entity text, which the
`&amp;`-first order of `_unescapeXML` corrupts). -/
def xmlSafeByte (b : Nat) : Bool := !(b == 38 || b == 60 || b == 62 || b == 39)

/-- A field value that XMP embedding handles faithfully: a string whose
bytes are `xmlSafeByte`. -/
def xmlSafeVal (v : JVal) : Bool :=
  match v with
  | .s s => s.all xmlSafeByte
  | _ => false

/-- A record whose keys and values are strings free of the XML-special
bytes `& < > '`. -/
def xmlSafeRecord (md : Record) : Bool :=
  md.all (fun p => p.1.all xmlSafeByte && xmlSafeVal p.2)

/-- The per-byte effect of `_escapeXML` on `xmlSafeByte` input: `"`
becomes `&quot;`, everything else passes through. -/
def quotBlock (b : Nat) : List Nat := if b = 34 then asc "&quot;" else [b]

/-- Some index below both lengths where `op` and `s` disagree — then no
continuation of `s` can start with `op`. -/
def mismatches (op s : List Nat) : Bool :=
  match op, s with
  | a :: p, b :: l => (a != b) || mismatches p l
  | _, _ => false

/-- No suffix of `T` can begin an occurrence of `op`, however the text
continues after `T`. -/
def noStartIn (op : List Nat) : List Nat → Bool
  | [] => true
  | l@(_ :: rest) => mismatches op l && noStartIn op rest

namespace EXIF

/-- A parsed JPEG segment whose declared length matches its byte count
(marker byte `FF`, a non-SOS marker, a length field counting itself):
such a segment re-parses to itself wherever it sits in a buffer. -/
def segWF (s : List Nat) : Prop :=
  4 ≤ s.length ∧ s.getD 0 0 = 255 ∧ s.getD 0 0 * 256 + s.getD 1 0 ≠ 65498 ∧
    s.length = 2 + (s.getD 2 0 * 256 + s.getD 3 0)

instance : DecidablePred segWF := fun s => by unfold segWF; infer_instance

/-- A Start-Of-Scan block: `FF DA` followed by anything. -/
def sosOK (s : List Nat) : Prop :=
  2 ≤ s.length ∧ s.getD 0 0 = 255 ∧ s.getD 1 0 = 218

instance : DecidablePred sosOK := fun s => by unfold sosOK; infer_instance

/-- A well-formed tail segment list: every segment re-parses to itself,
except that the last may instead be a SOS block. -/
def segsWF : List (List Nat) → Prop
  | [] => True
  | s :: rest => (segWF s ∨ (rest = [] ∧ sosOK s)) ∧ segsWF rest

def segsWFdec : (l : List (List Nat)) → Decidable (segsWF l)
  | [] => .isTrue trivial
  | _ :: rest => @instDecidableAnd _ _ inferInstance (segsWFdec rest)

instance : ∀ l, Decidable (segsWF l) := segsWFdec

end EXIF

/-- A minimal record passing `_validateMetadata`, used by the concrete
instances below. -/
def sampleRecord : Record :=
  [(asc "contentType", .s (asc "text")), (asc "origin", .s (asc "ai")),
   (asc "created", .s (asc "2024"))]

/-- A minimal complete ID3v2.4 tag (33 bytes) holding one
`AI_METADATA` text frame, used by the concrete idempotence
counterexample: two such tags stacked back-to-back make removal
non-idempotent, since one call strips only the outer tag. -/
def aiTag : List Nat :=
  asc "ID3" ++ [4, 0, 0] ++ ID3.writeSynchsafeInt 23 ++
    (asc "TXXX" ++ ID3.writeSynchsafeInt 13 ++ [0, 0] ++ (3 :: (asc "AI_METADATA" ++ [0])))

/-! ### Supporting lemmas -/

theorem asc_ID3 : asc "ID3" = [73, 68, 51] := by decide

theorem synchsafe_roundtrip (v : Nat) (h : v < 2 ^ 28) :
    ID3.readSynchsafeInt (ID3.writeSynchsafeInt v) = v := by
  have hw : v % 4294967296 = v := Nat.mod_eq_of_lt (by omega)
  simp only [ID3.readSynchsafeInt, ID3.writeSynchsafeInt, hw, List.getD_cons_zero,
    List.getD_cons_succ]
  apply Nat.eq_of_testBit_eq
  intro i
  have h127 : (127 : Nat) = 2 ^ 7 - 1 := by norm_num
  simp only [h127, Nat.and_pow_two_sub_one_eq_mod, Nat.testBit_lor,
    Nat.testBit_shiftLeft, Nat.testBit_mod_two_pow, Nat.testBit_shiftRight]
  by_cases h28 : 28 ≤ i
  · have hv : v.testBit i = false :=
      Nat.testBit_lt_two_pow (lt_of_lt_of_le h (Nat.pow_le_pow_right (by norm_num) h28))
    simp [hv, show ¬(i - 21 < 7) by omega, show ¬(i - 14 < 7) by omega,
      show ¬(i - 7 < 7) by omega, show ¬(i < 7) by omega]
  · by_cases h21 : 21 ≤ i
    · simp [h21, show i - 21 < 7 by omega, show 21 + (i - 21) = i by omega,
        show ¬(i - 14 < 7) by omega, show ¬(i - 7 < 7) by omega,
        show ¬(i < 7) by omega, show (14 : Nat) ≤ i by omega,
        show (7 : Nat) ≤ i by omega]
    · by_cases h14 : 14 ≤ i
      · simp [h14, h21, show i - 14 < 7 by omega, show 14 + (i - 14) = i by omega,
          show ¬(i - 7 < 7) by omega, show ¬(i < 7) by omega,
          show (7 : Nat) ≤ i by omega]
      · by_cases h7 : 7 ≤ i
        · simp [h7, h14, h21, show i - 7 < 7 by omega, show 7 + (i - 7) = i by omega,
            show ¬(i < 7) by omega]
        · simp [h7, h14, h21, show i < 7 by omega]

/-- `_parseID3Header` on a long-enough `ID3`-magic buffer: the size
bytes are decoded by the synchsafe formula with no validation at all. -/
theorem parseID3Header_magic (buf : List Nat) (hlen : 10 ≤ buf.length)
    (hmagic : buf.take 3 = [73, 68, 51]) :
    ID3.parseID3Header buf =
      { hasID3 := true, tagSize := ID3.readSynchsafeInt (slice buf 6 10) + 10
        majorVersion := buf.getD 3 0, minorVersion := buf.getD 4 0
        flags := buf.getD 5 0, existingFrames := [] } := by
  rw [ID3.parseID3Header]
  rw [if_neg (by omega)]
  rw [if_neg (by simp [slice, asc_ID3, hmagic])]

theorem ID3_hasMetadata_iff (buf : List Nat) :
    ID3.hasMetadata buf = true ↔ 10 ≤ buf.length ∧ buf.take 3 = [73, 68, 51] := by
  rw [ID3.hasMetadata, ID3.parseID3Header]
  by_cases hlen : buf.length < 10
  · simp [hlen]
  · rw [if_neg hlen]
    by_cases hmagic : slice buf 0 3 ≠ asc "ID3"
    · rw [if_pos hmagic]
      simp only [slice, asc_ID3, List.drop_zero] at hmagic
      simp [hmagic]
    · rw [if_neg hmagic]
      simp only [slice, asc_ID3, List.drop_zero, not_not] at hmagic
      simp [hmagic]
      omega

theorem hexVal_hexDigit (d : Nat) (h : d < 16) : hexVal (hexDigit d) = some d := by
  by_cases h10 : d < 10
  · simp only [hexDigit, if_pos h10, hexVal]
    rw [if_pos (by omega)]
    exact congrArg some (by omega)
  · simp only [hexDigit, if_neg h10, hexVal]
    rw [if_neg (by omega), if_pos (by omega)]
    exact congrArg some (by omega)

theorem parseStringBody_esc (s rest : List Nat) :
    parseStringBody (escBytes s ++ 34 :: rest) = some (s, rest) := by
  induction s with
  | nil =>
    show parseStringBody (escBytes [] ++ 34 :: rest) = some ([], rest)
    rw [show escBytes [] ++ 34 :: rest = 34 :: rest by simp [escBytes]]
    rw [parseStringBody.eq_def]
    simp
  | cons c s ih =>
    have hesc : escBytes (c :: s) ++ 34 :: rest = escByte c ++ (escBytes s ++ 34 :: rest) := by
      simp [escBytes]
    rw [hesc]
    by_cases h34 : c = 34
    · subst h34
      rw [show escByte 34 ++ (escBytes s ++ 34 :: rest) =
        92 :: 34 :: (escBytes s ++ 34 :: rest) from rfl]
      rw [parseStringBody.eq_def]
      simp [ih]
    · by_cases h92 : c = 92
      · subst h92
        rw [show escByte 92 ++ (escBytes s ++ 34 :: rest) =
          92 :: 92 :: (escBytes s ++ 34 :: rest) from rfl]
        rw [parseStringBody.eq_def]
        simp [ih]
      · by_cases h8 : c = 8
        · subst h8
          rw [show escByte 8 ++ (escBytes s ++ 34 :: rest) =
            92 :: 98 :: (escBytes s ++ 34 :: rest) from rfl]
          rw [parseStringBody.eq_def]
          simp [ih]
        · by_cases h9 : c = 9
          · subst h9
            rw [show escByte 9 ++ (escBytes s ++ 34 :: rest) =
              92 :: 116 :: (escBytes s ++ 34 :: rest) from rfl]
            rw [parseStringBody.eq_def]
            simp [ih]
          · by_cases h10 : c = 10
            · subst h10
              rw [show escByte 10 ++ (escBytes s ++ 34 :: rest) =
                92 :: 110 :: (escBytes s ++ 34 :: rest) from rfl]
              rw [parseStringBody.eq_def]
              simp [ih]
            · by_cases h12 : c = 12
              · subst h12
                rw [show escByte 12 ++ (escBytes s ++ 34 :: rest) =
                  92 :: 102 :: (escBytes s ++ 34 :: rest) from rfl]
                rw [parseStringBody.eq_def]
                simp [ih]
              · by_cases h13 : c = 13
                · subst h13
                  rw [show escByte 13 ++ (escBytes s ++ 34 :: rest) =
                    92 :: 114 :: (escBytes s ++ 34 :: rest) from rfl]
                  rw [parseStringBody.eq_def]
                  simp [ih]
                · by_cases hlt : c < 32
                  · have hdiv : c / 16 < 16 := by omega
                    have hmod : c % 16 < 16 := by omega
                    have hcp : cpUtf8 (c / 16 * 16 + c % 16) = [c] := by
                      have harg : c / 16 * 16 + c % 16 = c := by omega
                      rw [harg, cpUtf8, if_pos (by omega)]
                    simp only [escByte, if_neg h34, if_neg h92, if_neg h8, if_neg h9,
                      if_neg h10, if_neg h12, if_neg h13, if_pos hlt,
                      List.cons_append, List.nil_append]
                    rw [parseStringBody.eq_def]
                    simp only [hexVal_hexDigit _ hdiv, hexVal_hexDigit _ hmod]
                    simp [hexVal, ih, hcp]
                  · simp only [escByte, if_neg h34, if_neg h92, if_neg h8, if_neg h9,
                      if_neg h10, if_neg h12, if_neg h13, if_neg hlt,
                      List.cons_append, List.nil_append]
                    rw [parseStringBody.eq_def]
                    simp [h34, h92, ih]

theorem asc_true : asc "true" = [116, 114, 117, 101] := by decide

theorem asc_false : asc "false" = [102, 97, 108, 115, 101] := by decide

theorem parseVal_ser (v : JVal) (rest : List Nat) (h : plainVal v = true) :
    parseVal (jsonStringifyVal v ++ rest) = some (v, rest) := by
  rcases v with s | b | bs
  · have h1 : jsonStringifyVal (.s s) ++ rest = 34 :: (escBytes s ++ 34 :: rest) := by
      simp [jsonStringifyVal, quoteStr]
    rw [h1, parseVal.eq_def]
    simp [parseStringBody_esc]
  · rcases b with - | -
    · have h1 : jsonStringifyVal (.b false) ++ rest =
          102 :: 97 :: 108 :: 115 :: 101 :: rest := by
        simp [jsonStringifyVal, asc_false]
      rw [h1, parseVal.eq_def]
      simp [asc_true, asc_false]
    · have h1 : jsonStringifyVal (.b true) ++ rest = 116 :: 114 :: 117 :: 101 :: rest := by
        simp [jsonStringifyVal, asc_true]
      rw [h1, parseVal.eq_def]
      simp [asc_true]
  · simp [plainVal] at h

theorem parseFields_ser (fs : Record) : ∀ (fuel : Nat) (rest : List Nat),
    fs ≠ [] → plainRecord fs = true → fs.length ≤ fuel →
    parseFields fuel (serFields fs ++ 125 :: rest) = some (fs, rest) := by
  induction fs with
  | nil => simp
  | cons p ps ih =>
    intro fuel rest hne hplain hfuel
    obtain ⟨k, v⟩ := p
    have hv : plainVal v = true := by
      simp [plainRecord] at hplain
      exact hplain.1
    match fuel, hfuel with
    | fuel + 1, hfuel2 =>
      rcases ps with - | ⟨q, qs⟩
      · have hser : serFields [(k, v)] ++ 125 :: rest =
            34 :: (escBytes k ++ 34 :: (58 :: (jsonStringifyVal v ++ 125 :: rest))) := by
          simp [serFields, serField, quoteStr]
        rw [hser, parseFields.eq_def]
        simp only [parseStringBody_esc, parseVal_ser v _ hv]
      · have hser : serFields ((k, v) :: q :: qs) ++ 125 :: rest =
            34 :: (escBytes k ++ 34 :: (58 :: (jsonStringifyVal v ++
              44 :: (serFields (q :: qs) ++ 125 :: rest)))) := by
          simp [serFields, serField, quoteStr]
        rw [hser, parseFields.eq_def]
        have hps : plainRecord (q :: qs) = true := by
          simp [plainRecord] at hplain ⊢
          exact hplain.2
        have hrec := ih fuel rest (by simp) hps
          (by simp only [List.length_cons] at hfuel2 ⊢; omega)
        simp only [parseStringBody_esc, parseVal_ser v _ hv, hrec]

theorem serField_length_pos (p : List Nat × JVal) : 1 ≤ (serField p).length := by
  simp [serField, quoteStr]

theorem serFields_length (fs : Record) : fs.length ≤ (serFields fs).length := by
  induction fs with
  | nil => simp [serFields]
  | cons p ps ih =>
    rcases ps with - | ⟨q, qs⟩
    · simpa [serFields] using serField_length_pos p
    · have := serField_length_pos p
      simp only [serFields, List.length_append, List.length_cons] at ih ⊢
      omega

theorem jsonParse_stringify (r : Record) (h : plainRecord r = true) :
    jsonParse (jsonStringify r) = some r := by
  rcases r with - | ⟨p, ps⟩
  · rfl
  · obtain ⟨k, v⟩ := p
    have hstart : ∃ t, serFields ((k, v) :: ps) = 34 :: t := by
      rcases ps with - | ⟨q, qs⟩
      · exact ⟨(escBytes k ++ [34]) ++ 58 :: jsonStringifyVal v,
          by simp [serFields, serField, quoteStr]⟩
      · exact ⟨(escBytes k ++ [34]) ++ 58 :: (jsonStringifyVal v ++ 44 :: serFields (q :: qs)),
          by simp [serFields, serField, quoteStr]⟩
    obtain ⟨t, ht⟩ := hstart
    have hform : jsonStringify ((k, v) :: ps) = 123 :: 34 :: (t ++ [125]) := by
      simp [jsonStringify, ht]
    rw [hform, jsonParse.eq_def]
    have hrw : (34 :: (t ++ [125]) : List Nat) = serFields ((k, v) :: ps) ++ 125 :: [] := by
      simp [ht]
    have hfuel : ((k, v) :: ps).length ≤ t.length + 1 + 1 := by
      have h1 := serFields_length ((k, v) :: ps)
      have h2 := congrArg List.length ht
      simp only [List.length_cons, List.length_append, List.length_nil] at h1 h2 ⊢
      omega
    have hp : parseFields (t.length + 1 + 1) (34 :: (t ++ [125])) =
        some ((k, v) :: ps, []) := by
      have hl : t.length + 1 + 1 = (serFields ((k, v) :: ps) ++ 125 :: ([] : List Nat)).length := by
        have h2 := congrArg List.length hrw
        simp only [List.length_cons, List.length_append, List.length_nil] at h2 ⊢
        omega
      rw [hrw, hl]
      refine parseFields_ser ((k, v) :: ps) _ [] (by simp) h ?_
      rw [← hl]
      exact hfuel
    simp [hp]

theorem writeSynchsafeInt_length (v : Nat) : (ID3.writeSynchsafeInt v).length = 4 := rfl

theorem slice_pre (pre tail : List Nat) (a b : Nat) :
    slice (pre ++ tail) (pre.length + a) (pre.length + b) = slice tail a b := by
  simp only [slice]
  rw [show pre.length + b - (pre.length + a) = b - a by omega]
  rw [← List.drop_drop, List.drop_left]

theorem slice_zero_take (tail : List Nat) (b : Nat) : slice tail 0 b = tail.take b := by
  simp [slice]

theorem slice_pre0 (pre tail : List Nat) (b : Nat) :
    slice (pre ++ tail) pre.length (pre.length + b) = tail.take b := by
  have h := slice_pre pre tail 0 b
  rw [Nat.add_zero] at h
  rw [h, slice_zero_take]

theorem buildFrame_eq (f : ID3.Frame) (h4 : f.id.length = 4) :
    ID3.buildFrame f =
      f.id ++ (ID3.writeSynchsafeInt f.data.length ++ ([0, 0] ++ f.data)) := by
  simp [ID3.buildFrame, ID3.writeFrameSize, List.take_of_length_le (le_of_eq h4), h4]

theorem buildFrame_length (f : ID3.Frame) (h4 : f.id.length = 4) :
    (ID3.buildFrame f).length = 10 + f.data.length := by
  simp [buildFrame_eq f h4, writeSynchsafeInt_length, h4]
  omega

/-- Re-parsing the byte image of a list of well-formed frames (followed
by the 1024-byte padding `_buildID3Tag` appends) recovers exactly their
`normFrame` forms. -/
theorem parseFramesLoopGo_build (frames : List ID3.Frame) :
    ∀ (fuel : Nat) (pre payload : List Nat),
    (∀ f ∈ frames, ID3.frameWF f) → frames.length + 1 ≤ fuel →
    ID3.parseFramesLoopGo fuel
      (pre ++ ((frames.map ID3.buildFrame).flatten ++ (List.replicate 1024 0 ++ payload)))
      4 (pre.length + (((frames.map ID3.buildFrame).flatten).length + 1024)) pre.length
      = .ok (frames.map ID3.normFrame) := by
  induction frames with
  | nil =>
    intro fuel pre payload _ hfuel
    match fuel, hfuel with
    | fuel + 1, _ =>
      rw [ID3.parseFramesLoopGo]
      rw [if_pos (by simp only [List.map_nil, List.flatten_nil, List.length_nil]; omega)]
      have hid : slice (pre ++ ([] ++ (List.replicate 1024 0 ++ payload)))
          pre.length (pre.length + 4) = [0, 0, 0, 0] := by
        rw [slice_pre0, List.nil_append, List.take_append_eq_append_take,
          List.take_replicate, List.length_replicate]
        rw [show min 4 1024 = 4 by norm_num, show (4 : Nat) - 1024 = 0 by norm_num]
        rw [List.take_zero, List.append_nil]
        decide
      simp only [List.map_nil, List.flatten_nil] at hid ⊢
      rw [hid, if_pos rfl]
  | cons f fs ih =>
    intro fuel pre payload hwf hfuel
    obtain ⟨h4, hnz, hpos, hbound⟩ := hwf f (by simp)
    match fuel, hfuel with
    | fuel + 1, hfuel2 =>
      have hflat : ((f :: fs).map ID3.buildFrame).flatten =
          ID3.buildFrame f ++ (fs.map ID3.buildFrame).flatten := by simp
      set flatfs := (fs.map ID3.buildFrame).flatten with hflatfs
      have hbflen : (ID3.buildFrame f).length = 10 + f.data.length := buildFrame_length f h4
      -- the tail of the buffer after `pre`, fully right-associated
      have htail : ID3.buildFrame f ++ (flatfs ++ (List.replicate 1024 0 ++ payload)) =
          f.id ++ (ID3.writeSynchsafeInt f.data.length ++ ([0, 0] ++
            (f.data ++ (flatfs ++ (List.replicate 1024 0 ++ payload))))) := by
        rw [buildFrame_eq f h4]
        simp [List.append_assoc]
      have hbuf : pre ++ (((f :: fs).map ID3.buildFrame).flatten ++
          (List.replicate 1024 0 ++ payload)) =
          pre ++ (f.id ++ (ID3.writeSynchsafeInt f.data.length ++ ([0, 0] ++
            (f.data ++ (flatfs ++ (List.replicate 1024 0 ++ payload)))))) := by
        rw [hflat, List.append_assoc, htail]
      rw [hbuf]
      set tail := f.id ++ (ID3.writeSynchsafeInt f.data.length ++ ([0, 0] ++
        (f.data ++ (flatfs ++ (List.replicate 1024 0 ++ payload))))) with htaildef
      have htagEnd : pre.length + ((((f :: fs).map ID3.buildFrame).flatten).length + 1024) =
          pre.length + (10 + f.data.length + (flatfs.length + 1024)) := by
        rw [hflat, List.length_append, hbflen]
        omega
      rw [htagEnd]
      rw [ID3.parseFramesLoopGo]
      rw [if_pos (by omega)]
      have hid : slice (pre ++ tail) pre.length (pre.length + 4) = f.id := by
        rw [slice_pre0, htaildef]
        exact List.take_left' h4
      rw [hid, if_neg hnz]
      have hsz : slice (pre ++ tail) (pre.length + 4) (pre.length + 8) =
          ID3.writeSynchsafeInt f.data.length := by
        rw [slice_pre, htaildef, slice]
        rw [List.drop_left' h4]
        rw [show (8 : Nat) - 4 = 4 from rfl]
        exact List.take_left' (writeSynchsafeInt_length _)
      rw [hsz]
      have hread : ID3.readFrameSize (ID3.writeSynchsafeInt f.data.length) 4 =
          .ok f.data.length := by
        rw [ID3.readFrameSize, if_pos (by omega), synchsafe_roundtrip _ hbound]
      simp only [hread]
      rw [if_neg (by omega)]
      have hflags : slice (pre ++ tail) (pre.length + 8) (pre.length + 10) = [0, 0] := by
        rw [slice_pre, htaildef, slice]
        rw [show List.drop 8 (f.id ++ (ID3.writeSynchsafeInt f.data.length ++ ([0, 0] ++
          (f.data ++ (flatfs ++ (List.replicate 1024 0 ++ payload)))))) =
          [0, 0] ++ (f.data ++ (flatfs ++ (List.replicate 1024 0 ++ payload))) by
          rw [show (8 : Nat) = 4 + 4 from rfl, ← List.drop_drop, List.drop_left' h4,
            List.drop_left' (writeSynchsafeInt_length _)]]
        rfl
      have hdata : slice (pre ++ tail) (pre.length + 10) (pre.length + (10 + f.data.length)) =
          f.data := by
        rw [slice_pre, htaildef, slice]
        rw [show List.drop 10 (f.id ++ (ID3.writeSynchsafeInt f.data.length ++ ([0, 0] ++
          (f.data ++ (flatfs ++ (List.replicate 1024 0 ++ payload)))))) =
          f.data ++ (flatfs ++ (List.replicate 1024 0 ++ payload)) by
          rw [show (10 : Nat) = 4 + (4 + 2) by rfl, ← List.drop_drop, ← List.drop_drop,
            List.drop_left' h4, List.drop_left' (writeSynchsafeInt_length _)]
          rfl]
        rw [show 10 + f.data.length - 10 = f.data.length by omega]
        exact List.take_left' rfl
      have hrec : ID3.parseFramesLoopGo fuel (pre ++ tail) 4
          (pre.length + (10 + f.data.length + (flatfs.length + 1024)))
          (pre.length + 10 + f.data.length) = .ok (fs.map ID3.normFrame) := by
        have hregroup : pre ++ tail = (pre ++ ID3.buildFrame f) ++
            (flatfs ++ (List.replicate 1024 0 ++ payload)) := by
          rw [← htail, List.append_assoc]
        have hoff : pre.length + 10 + f.data.length = (pre ++ ID3.buildFrame f).length := by
          rw [List.length_append, hbflen]
          omega
        have hend : pre.length + (10 + f.data.length + (flatfs.length + 1024)) =
            (pre ++ ID3.buildFrame f).length + (flatfs.length + 1024) := by
          rw [List.length_append, hbflen]
          omega
        rw [hregroup, hoff, hend]
        exact ih fuel (pre ++ ID3.buildFrame f) payload
          (fun g hg => hwf g (by simp [hg]))
          (by simp only [List.length_cons] at hfuel2; omega)
      rw [show pre.length + (10 + f.data.length) = pre.length + 10 + f.data.length by omega]
        at hdata
      simp only [hrec]
      simp only [Except.ok.injEq, List.map_cons]
      rw [hflags, hdata]
      rfl

theorem drop_append_add (pre rest : List Nat) (k : Nat) :
    (pre ++ rest).drop (pre.length + k) = rest.drop k := by
  rw [← List.drop_drop, List.drop_left]

theorem getD_append_left {l l' : List Nat} {i : Nat} (h : i < l.length) (d : Nat) :
    (l ++ l').getD i d = l.getD i d := by
  simp [List.getD, List.getElem?_append_left h]

theorem getField_cons (k0 : List Nat) (v0 : JVal) (r : Record) (k : List Nat) :
    getField ((k0, v0) :: r) k = if k0 = k then some v0 else getField r k := by
  by_cases h : k0 = k
  · simp [getField, h, List.find?_cons_of_pos]
  · rw [if_neg h]
    simp only [getField]
    rw [List.find?_cons_of_neg]
    simp [h]

theorem delField_cons (k0 : List Nat) (v0 : JVal) (r : Record) (k : List Nat) :
    delField ((k0, v0) :: r) k =
      if k0 = k then delField r k else (k0, v0) :: delField r k := by
  by_cases h : k0 = k <;> simp [delField, List.filter_cons, h]

theorem getField_setField_same (r : Record) (k : List Nat) (v : JVal) :
    getField (setField r k v) k = some v := by
  induction r with
  | nil => simp [setField, getField_cons]
  | cons p ps ih =>
    obtain ⟨k', v'⟩ := p
    by_cases h : k' = k
    · simp [setField, h, getField_cons]
    · simp [setField, h, getField_cons, ih]

theorem delField_setField_same (r : Record) (k : List Nat) (v : JVal) :
    delField (setField r k v) k = delField r k := by
  induction r with
  | nil => simp [setField, delField_cons]
  | cons p ps ih =>
    obtain ⟨k', v'⟩ := p
    by_cases h : k' = k
    · simp [setField, h, delField_cons]
    · simp [setField, h, delField_cons, ih]

theorem delField_setField_ne (r : Record) (k k' : List Nat) (v : JVal) (h : k' ≠ k) :
    delField (setField r k v) k' = setField (delField r k') k v := by
  induction r with
  | nil => simp [setField, delField_cons, delField, Ne.symm h]
  | cons p ps ih =>
    obtain ⟨k0, v0⟩ := p
    by_cases h0 : k0 = k
    · subst h0
      simp [setField, delField_cons, Ne.symm h, h]
    · by_cases h1 : k0 = k'
      · subst h1
        simp [setField, h0, delField_cons, ih]
      · simp [setField, h0, delField_cons, h1, ih]

theorem findIdx?_no_zero (l₁ l₂ : List Nat) (h : ∀ b ∈ l₁, ¬(b = 0)) :
    (l₁ ++ 0 :: l₂).findIdx? (· = 0) = some l₁.length := by
  induction l₁ with
  | nil => simp
  | cons b bs ih =>
    have hb : ¬(b = 0) := h b (by simp)
    simp only [List.cons_append, List.findIdx?_cons]
    rw [if_neg (by simpa using hb)]
    rw [List.findIdx?_succ]
    rw [ih (fun x hx => h x (by simp [hx]))]
    simp

theorem parseTextFrame_create (desc value : List Nat) (hdesc : ∀ b ∈ desc, ¬(b = 0)) :
    ID3.parseTextFrame ([3] ++ desc ++ [0] ++ value) = ⟨desc, value⟩ := by
  have hform : ([3] ++ desc ++ [0] ++ value).drop 1 = desc ++ 0 :: value := by
    simp
  have h1 : (desc ++ 0 :: value).take desc.length = desc := List.take_left desc _
  have h2 : (desc ++ 0 :: value).drop (desc.length + 1) = value := by
    rw [drop_append_add]
    rfl
  rw [ID3.parseTextFrame, hform, findIdx?_no_zero desc value hdesc]
  simp [h1, h2]

theorem parseID3Header_build (frames : List ID3.Frame) (payload : List Nat)
    (hsize : ((frames.map ID3.buildFrame).flatten).length + 1024 < 268435456) :
    ID3.parseID3Header (ID3.buildID3Tag frames ++ payload) =
      { hasID3 := true
        tagSize := ((frames.map ID3.buildFrame).flatten).length + 1024 + 10
        majorVersion := 4, minorVersion := 0, flags := 0, existingFrames := [] } := by
  have hsum : ((frames.map ID3.buildFrame).map List.length).sum =
      ((frames.map ID3.buildFrame).flatten).length := (List.length_flatten _).symm
  have hform : ID3.buildID3Tag frames ++ payload =
      [73, 68, 51, 4, 0, 0] ++
        (ID3.writeSynchsafeInt (((frames.map ID3.buildFrame).flatten).length + 1024) ++
          ((frames.map ID3.buildFrame).flatten ++ (List.replicate 1024 0 ++ payload))) := by
    simp only [ID3.buildID3Tag, asc_ID3, hsum]
    simp only [List.append_assoc, List.cons_append, List.nil_append]
  rw [hform]
  have hlen : 10 ≤ ([73, 68, 51, 4, 0, 0] ++
      (ID3.writeSynchsafeInt (((frames.map ID3.buildFrame).flatten).length + 1024) ++
        ((frames.map ID3.buildFrame).flatten ++ (List.replicate 1024 0 ++ payload)))).length := by
    simp only [List.length_append, writeSynchsafeInt_length]
    rw [show ([73, 68, 51, 4, 0, 0] : List Nat).length = 6 from rfl]
    omega
  have hmagic : ([73, 68, 51, 4, 0, 0] ++
      (ID3.writeSynchsafeInt (((frames.map ID3.buildFrame).flatten).length + 1024) ++
        ((frames.map ID3.buildFrame).flatten ++ (List.replicate 1024 0 ++ payload)))).take 3 =
      [73, 68, 51] := rfl
  rw [parseID3Header_magic _ hlen hmagic]
  have hslice : slice ([73, 68, 51, 4, 0, 0] ++
      (ID3.writeSynchsafeInt (((frames.map ID3.buildFrame).flatten).length + 1024) ++
        ((frames.map ID3.buildFrame).flatten ++ (List.replicate 1024 0 ++ payload)))) 6 10 =
      (ID3.writeSynchsafeInt (((frames.map ID3.buildFrame).flatten).length + 1024) ++
        ((frames.map ID3.buildFrame).flatten ++ (List.replicate 1024 0 ++ payload))).take 4 := rfl
  rw [hslice, List.take_left' (writeSynchsafeInt_length _), synchsafe_roundtrip _ hsize]
  have h3 : ([73, 68, 51, 4, 0, 0] ++
      (ID3.writeSynchsafeInt (((frames.map ID3.buildFrame).flatten).length + 1024) ++
        ((frames.map ID3.buildFrame).flatten ++ (List.replicate 1024 0 ++ payload)))).getD 3 0
      = 4 := by
    rw [getD_append_left (by rw [show ([73, 68, 51, 4, 0, 0] : List Nat).length = 6 from rfl]; omega)]
    rfl
  have h4 : ([73, 68, 51, 4, 0, 0] ++
      (ID3.writeSynchsafeInt (((frames.map ID3.buildFrame).flatten).length + 1024) ++
        ((frames.map ID3.buildFrame).flatten ++ (List.replicate 1024 0 ++ payload)))).getD 4 0
      = 0 := by
    rw [getD_append_left (by rw [show ([73, 68, 51, 4, 0, 0] : List Nat).length = 6 from rfl]; omega)]
    rfl
  have h5 : ([73, 68, 51, 4, 0, 0] ++
      (ID3.writeSynchsafeInt (((frames.map ID3.buildFrame).flatten).length + 1024) ++
        ((frames.map ID3.buildFrame).flatten ++ (List.replicate 1024 0 ++ payload)))).getD 5 0
      = 0 := by
    rw [getD_append_left (by rw [show ([73, 68, 51, 4, 0, 0] : List Nat).length = 6 from rfl]; omega)]
    rfl
  rw [h3, h4, h5]

theorem del3_set_cks (r : Record) (v : JVal) :
    delField (delField (delField (setField r (asc "checksum") v) (asc "checksum"))
      (asc "_verified")) (asc "_signatureValid") =
    delField (delField (delField r (asc "checksum")) (asc "_verified"))
      (asc "_signatureValid") := by
  rw [delField_setField_same]

theorem del3_set_ver (r : Record) (v : JVal) :
    delField (delField (delField (setField r (asc "_verified") v) (asc "checksum"))
      (asc "_verified")) (asc "_signatureValid") =
    delField (delField (delField r (asc "checksum")) (asc "_verified"))
      (asc "_signatureValid") := by
  rw [delField_setField_ne _ _ _ _ (by decide), delField_setField_same]

theorem del3_set_sigv (r : Record) (v : JVal) :
    delField (delField (delField (setField r (asc "_signatureValid") v) (asc "checksum"))
      (asc "_verified")) (asc "_signatureValid") =
    delField (delField (delField r (asc "checksum")) (asc "_verified"))
      (asc "_signatureValid") := by
  rw [delField_setField_ne _ _ _ _ (by decide), delField_setField_ne _ _ _ _ (by decide),
    delField_setField_same]

theorem existingFrames_nil (buf : List Nat) :
    (ID3.parseID3Header buf).existingFrames = [] := by
  rw [ID3.parseID3Header]
  split
  · rfl
  · split <;> rfl

theorem sha256Hex_length (bytes : List Nat) : (sha256Hex bytes).length = 64 := by
  simp [sha256Hex]

theorem sha256Hex_ne_nil (bytes : List Nat) : (sha256Hex bytes).isEmpty = false := by
  have h := sha256Hex_length bytes
  rcases hs : sha256Hex bytes with - | ⟨a, b⟩
  · rw [hs] at h
    simp at h
  · rfl

theorem buildID3Tag_append (frames : List ID3.Frame) (payload : List Nat) :
    ID3.buildID3Tag frames ++ payload =
      ([73, 68, 51, 4, 0, 0] ++
        ID3.writeSynchsafeInt (((frames.map ID3.buildFrame).flatten).length + 1024)) ++
        ((frames.map ID3.buildFrame).flatten ++ (List.replicate 1024 0 ++ payload)) := by
  have hsum : ((frames.map ID3.buildFrame).map List.length).sum =
      ((frames.map ID3.buildFrame).flatten).length := (List.length_flatten _).symm
  simp only [ID3.buildID3Tag, asc_ID3, hsum]
  simp only [List.append_assoc, List.cons_append, List.nil_append]

theorem parseTextFrame_meta (R : Record) :
    ID3.parseTextFrame ([3] ++ asc "AI_METADATA" ++ [0] ++ jsonStringify R) =
      ⟨asc "AI_METADATA", jsonStringify R⟩ :=
  parseTextFrame_create _ _ (by decide)

theorem parseTextFrame_ck (R : Record) :
    ID3.parseTextFrame ([3] ++ asc "AI_CHECKSUM" ++ [0] ++ sha256Hex (jsonStringify R)) =
      ⟨asc "AI_CHECKSUM", sha256Hex (jsonStringify R)⟩ :=
  parseTextFrame_create _ _ (by decide)

theorem extractAIFrames_two (R : Record) (hplain : plainRecord R = true) :
    ID3.extractAIFrames
      ([ID3.createTextFrame (asc "TXXX") (asc "AI_METADATA") (jsonStringify R),
        ID3.createTextFrame (asc "TXXX") (asc "AI_CHECKSUM")
          (sha256Hex (jsonStringify R))].map ID3.normFrame) =
      some (setField R (asc "checksum") (.s (sha256Hex (jsonStringify R)))) := by
  simp only [List.map_cons, List.map_nil, ID3.normFrame, ID3.createTextFrame]
  rw [ID3.extractAIFrames]
  simp only [ID3.extractLoop, parseTextFrame_meta, parseTextFrame_ck,
    jsonParse_stringify R hplain]
  simp [show asc "AI_CHECKSUM" ≠ asc "AI_METADATA" by decide]

theorem extractAIFrames_one (R : Record) (hplain : plainRecord R = true) :
    ID3.extractAIFrames
      ([ID3.createTextFrame (asc "TXXX") (asc "AI_METADATA") (jsonStringify R)].map
        ID3.normFrame) = some R := by
  simp only [List.map_cons, List.map_nil, ID3.normFrame, ID3.createTextFrame]
  rw [ID3.extractAIFrames]
  simp only [ID3.extractLoop, parseTextFrame_meta, jsonParse_stringify R hplain]
  simp

theorem createTextFrame_id (i d v : List Nat) : (ID3.createTextFrame i d v).id = i := rfl

theorem createTextFrame_data (i d v : List Nat) :
    (ID3.createTextFrame i d v).data = [3] ++ d ++ [0] ++ v := rfl

/-- The ID3 half of the (amended) round-trip: embedding a valid,
plain-valued record into any byte buffer and extracting it back yields
the record up to the `checksum` field (overwritten from the
`AI_CHECKSUM` frame) and the derived `_verified` / `_signatureValid`
flags. -/
theorem ID3_roundtrip (hOpts : ID3.Options) (C : List Nat) (R : Record)
    (opts : ID3.EmbedOpts)
    (hval : ID3.validateMetadata R = .ok ())
    (hplain : plainRecord R = true)
    (hkey : opts.privateKey = false)
    (hjson : (jsonStringify R).length + 1200 < 268435456) :
    ∃ out M, ID3.embedMetadata hOpts C R opts = .ok out ∧
      ID3.extractMetadata out = .ok (some M) ∧
      delField (delField (delField M (asc "checksum")) (asc "_verified"))
        (asc "_signatureValid") =
      delField (delField (delField R (asc "checksum")) (asc "_verified"))
        (asc "_signatureValid") := by
  have h11 : (asc "AI_METADATA").length = 11 := rfl
  have h11c : (asc "AI_CHECKSUM").length = 11 := rfl
  have hmdlen : (ID3.createTextFrame (asc "TXXX") (asc "AI_METADATA")
      (jsonStringify R)).data.length = 13 + (jsonStringify R).length := by
    rw [createTextFrame_data]
    simp [h11]
    omega
  have hcklen : (ID3.createTextFrame (asc "TXXX") (asc "AI_CHECKSUM")
      (sha256Hex (jsonStringify R))).data.length = 77 := by
    rw [createTextFrame_data]
    simp [h11c, sha256Hex_length]
  have hwfm : ID3.frameWF (ID3.createTextFrame (asc "TXXX") (asc "AI_METADATA")
      (jsonStringify R)) := by
    refine ⟨by rw [createTextFrame_id]; decide, by rw [createTextFrame_id]; decide, ?_, ?_⟩
    · rw [hmdlen]; omega
    · rw [hmdlen]; omega
  have hwfc : ID3.frameWF (ID3.createTextFrame (asc "TXXX") (asc "AI_CHECKSUM")
      (sha256Hex (jsonStringify R))) := by
    refine ⟨by rw [createTextFrame_id]; decide, by rw [createTextFrame_id]; decide, ?_, ?_⟩
    · rw [hcklen]; omega
    · rw [hcklen]; omega
  rcases hck : opts.includeChecksum with - | -
  case false =>
    set FR := [ID3.createTextFrame (asc "TXXX") (asc "AI_METADATA") (jsonStringify R)]
      with hFR
    set P := C.drop (ID3.parseID3Header C).tagSize with hP
    have hcreate : ID3.createID3Tag hOpts R (ID3.parseID3Header C).existingFrames opts =
        ID3.buildID3Tag FR := by
      rw [existingFrames_nil]
      simp [ID3.createID3Tag, hkey, hck]
    have hflatlen : ((FR.map ID3.buildFrame).flatten).length =
        23 + (jsonStringify R).length := by
      simp only [hFR, List.map_cons, List.map_nil, List.flatten_cons, List.flatten_nil,
        List.append_nil]
      rw [buildFrame_length _ (by rw [createTextFrame_id]; decide), hmdlen]
      omega
    have hsize : ((FR.map ID3.buildFrame).flatten).length + 1024 < 268435456 := by
      rw [hflatlen]; omega
    have hheader := parseID3Header_build FR P hsize
    have hembed : ID3.embedMetadata hOpts C R opts =
        .ok (ID3.buildID3Tag FR ++ P) := by
      simp only [ID3.embedMetadata, hval, hcreate]
    have hwf : ∀ f ∈ FR, ID3.frameWF f := by
      intro f hf
      simp only [hFR, List.mem_singleton] at hf
      rw [hf]; exact hwfm
    have hparse : ID3.parseID3Frames (ID3.buildID3Tag FR ++ P)
        { hasID3 := true
          tagSize := ((FR.map ID3.buildFrame).flatten).length + 1024 + 10
          majorVersion := 4, minorVersion := 0, flags := 0, existingFrames := [] } =
        .ok (FR.map ID3.normFrame) := by
      rw [ID3.parseID3Frames, ID3.parseFramesLoop]
      have happly := parseFramesLoopGo_build FR
        (((FR.map ID3.buildFrame).flatten).length + 1024)
        ([73, 68, 51, 4, 0, 0] ++
          ID3.writeSynchsafeInt (((FR.map ID3.buildFrame).flatten).length + 1024)) P
        hwf (by simp [hFR])
      have hplen : ([73, 68, 51, 4, 0, 0] ++
          ID3.writeSynchsafeInt (((FR.map ID3.buildFrame).flatten).length + 1024)).length
          = 10 := by
        rw [List.length_append, writeSynchsafeInt_length]
        rfl
      rw [hplen] at happly
      rw [buildID3Tag_append FR P]
      rw [show ((FR.map ID3.buildFrame).flatten).length + 1024 + 10 - 10 =
        ((FR.map ID3.buildFrame).flatten).length + 1024 by omega]
      rw [show ((FR.map ID3.buildFrame).flatten).length + 1024 + 10 =
        10 + (((FR.map ID3.buildFrame).flatten).length + 1024) by omega]
      exact happly
    refine ⟨ID3.buildID3Tag FR ++ P, ?_, hembed, ?_, ?_⟩
    case _ =>
      exact (let M0 := R
        let M1 := if truthy (getField M0 (asc "checksum")) then
            setField M0 (asc "_verified")
              (.b (ID3.verifyChecksum M0 (ID3.buildID3Tag FR ++ P)))
          else M0
        if truthy (getField M1 (asc "signature")) then
          setField M1 (asc "_signatureValid") (.b (ID3.verifySignature M1))
        else M1)
    · simp only [ID3.extractMetadata, hheader, Bool.not_true, Bool.false_eq_true,
        if_false, hparse, hFR]
      rw [extractAIFrames_one R hplain]
    · simp only []
      split <;> split <;>
        simp only [del3_set_sigv, del3_set_ver]
  case true =>
    set FR := [ID3.createTextFrame (asc "TXXX") (asc "AI_METADATA") (jsonStringify R),
      ID3.createTextFrame (asc "TXXX") (asc "AI_CHECKSUM") (sha256Hex (jsonStringify R))]
      with hFR
    set P := C.drop (ID3.parseID3Header C).tagSize with hP
    have hcreate : ID3.createID3Tag hOpts R (ID3.parseID3Header C).existingFrames opts =
        ID3.buildID3Tag FR := by
      rw [existingFrames_nil]
      simp [ID3.createID3Tag, hkey, hck]
    have hflatlen : ((FR.map ID3.buildFrame).flatten).length =
        110 + (jsonStringify R).length := by
      simp only [hFR, List.map_cons, List.map_nil, List.flatten_cons, List.flatten_nil,
        List.append_nil, List.length_append]
      rw [buildFrame_length _ (by rw [createTextFrame_id]; decide),
        buildFrame_length _ (by rw [createTextFrame_id]; decide), hmdlen, hcklen]
      omega
    have hsize : ((FR.map ID3.buildFrame).flatten).length + 1024 < 268435456 := by
      rw [hflatlen]; omega
    have hheader := parseID3Header_build FR P hsize
    have hembed : ID3.embedMetadata hOpts C R opts =
        .ok (ID3.buildID3Tag FR ++ P) := by
      simp only [ID3.embedMetadata, hval, hcreate]
    have hwf : ∀ f ∈ FR, ID3.frameWF f := by
      intro f hf
      simp only [hFR, List.mem_cons, List.mem_singleton] at hf
      rcases hf with hf | hf | hf
      · rw [hf]; exact hwfm
      · rw [hf]; exact hwfc
      · cases hf
    have hparse : ID3.parseID3Frames (ID3.buildID3Tag FR ++ P)
        { hasID3 := true
          tagSize := ((FR.map ID3.buildFrame).flatten).length + 1024 + 10
          majorVersion := 4, minorVersion := 0, flags := 0, existingFrames := [] } =
        .ok (FR.map ID3.normFrame) := by
      rw [ID3.parseID3Frames, ID3.parseFramesLoop]
      have happly := parseFramesLoopGo_build FR
        (((FR.map ID3.buildFrame).flatten).length + 1024)
        ([73, 68, 51, 4, 0, 0] ++
          ID3.writeSynchsafeInt (((FR.map ID3.buildFrame).flatten).length + 1024)) P
        hwf (by simp [hFR])
      have hplen : ([73, 68, 51, 4, 0, 0] ++
          ID3.writeSynchsafeInt (((FR.map ID3.buildFrame).flatten).length + 1024)).length
          = 10 := by
        rw [List.length_append, writeSynchsafeInt_length]
        rfl
      rw [hplen] at happly
      rw [buildID3Tag_append FR P]
      rw [show ((FR.map ID3.buildFrame).flatten).length + 1024 + 10 - 10 =
        ((FR.map ID3.buildFrame).flatten).length + 1024 by omega]
      rw [show ((FR.map ID3.buildFrame).flatten).length + 1024 + 10 =
        10 + (((FR.map ID3.buildFrame).flatten).length + 1024) by omega]
      exact happly
    refine ⟨ID3.buildID3Tag FR ++ P, ?_, hembed, ?_, ?_⟩
    case _ =>
      exact (let M0 := setField R (asc "checksum") (.s (sha256Hex (jsonStringify R)))
        let M1 := if truthy (getField M0 (asc "checksum")) then
            setField M0 (asc "_verified")
              (.b (ID3.verifyChecksum M0 (ID3.buildID3Tag FR ++ P)))
          else M0
        if truthy (getField M1 (asc "signature")) then
          setField M1 (asc "_signatureValid") (.b (ID3.verifySignature M1))
        else M1)
    · simp only [ID3.extractMetadata, hheader, Bool.not_true, Bool.false_eq_true,
        if_false, hparse, hFR]
      rw [extractAIFrames_two R hplain]
    · simp only []
      split <;> split <;>
        simp only [del3_set_sigv, del3_set_ver, del3_set_cks]

theorem EXIF_hasMetadata_iff (buf : List Nat) :
    EXIF.hasMetadata buf = true ↔ ∃ m, EXIF.extractMetadata buf = .ok (some m) := by
  rw [EXIF.hasMetadata]
  rcases h : EXIF.extractMetadata buf with e | m
  · simp
  · rcases m with - | m <;> simp

theorem startBytes_cons_eq (a : Nat) (p l : List Nat) :
    startBytes (a :: p) (a :: l) = startBytes p l := by
  simp [startBytes, List.take_succ_cons]

theorem startBytes_cons_ne {a b : Nat} (p l : List Nat) (h : b ≠ a) :
    startBytes (a :: p) (b :: l) = false := by
  simp [startBytes, List.take_succ_cons, h]

theorem containsBytes_cons (pat : List Nat) (c : Nat) (l : List Nat) :
    containsBytes pat (c :: l) = (startBytes pat (c :: l) || containsBytes pat l) := by
  rw [containsBytes]

theorem containsBytes_nil_of_ne (pat : List Nat) (h : pat ≠ []) :
    containsBytes pat [] = false := by
  rw [containsBytes]
  cases pat with
  | nil => exact absurd rfl h
  | cons a p => simp [startBytes]

theorem containsBytes_head_free {a : Nat} (p : List Nat) :
    ∀ l : List Nat, (∀ b ∈ l, b ≠ a) → containsBytes (a :: p) l = false := by
  intro l
  induction l with
  | nil => intro _; exact containsBytes_nil_of_ne _ (by simp)
  | cons c rest ih =>
    intro h
    rw [containsBytes_cons, startBytes_cons_ne _ _ (h c (by simp)),
      ih (fun b hb => h b (by simp [hb]))]
    rfl

theorem replaceAllGo_no_occ :
    ∀ (fuel : Nat) (pat rep l : List Nat), containsBytes pat l = false →
      replaceAllGo fuel pat rep l = l := by
  intro fuel
  induction fuel with
  | zero => intro pat rep l _; rfl
  | succ fuel ih =>
    intro pat rep l h
    cases l with
    | nil => rfl
    | cons c rest =>
      rw [containsBytes_cons, Bool.or_eq_false_iff] at h
      rw [replaceAllGo, if_neg, ih pat rep rest h.2]
      intro hc
      have : startBytes pat (c :: rest) = true := by
        simp [startBytes, hc.2]
      rw [this] at h
      exact absurd h.1 (by simp)

theorem replaceAll_no_occ (pat rep l : List Nat) (h : containsBytes pat l = false) :
    replaceAll pat rep l = l :=
  replaceAllGo_no_occ _ _ _ _ h

theorem replaceAllGo_single (c : Nat) (rep : List Nat) :
    ∀ (fuel : Nat) (l : List Nat), l.length ≤ fuel →
      replaceAllGo fuel [c] rep l = l.flatMap (fun b => if b = c then rep else [b]) := by
  intro fuel
  induction fuel with
  | zero =>
    intro l hl
    cases l with
    | nil => rfl
    | cons b rest => simp at hl
  | succ fuel ih =>
    intro l hl
    cases l with
    | nil => rfl
    | cons b rest =>
      simp only [List.length_cons] at hl
      rw [replaceAllGo]
      by_cases hb : b = c
      · subst hb
        rw [if_pos (by simp [List.take_succ_cons])]
        have hd : List.drop [b].length (b :: rest) = rest := by simp
        rw [hd, ih rest (by omega)]
        simp
      · rw [if_neg (by simp [List.take_succ_cons, hb])]
        simp only [List.flatMap_cons, if_neg hb]
        rw [ih rest (by omega)]
        rfl

theorem replaceAll_single (c : Nat) (rep l : List Nat) :
    replaceAll [c] rep l = l.flatMap (fun b => if b = c then rep else [b]) :=
  replaceAllGo_single c rep l.length l le_rfl

theorem mem_quotBlock {b x : Nat} (h : x ∈ quotBlock b) : x = b ∨ x ∈ asc "&quot;" := by
  unfold quotBlock at h
  split at h
  · exact Or.inr h
  · simp at h; exact Or.inl h

theorem xmlSafeByte_spec {b : Nat} (h : xmlSafeByte b = true) :
    b ≠ 38 ∧ b ≠ 60 ∧ b ≠ 62 ∧ b ≠ 39 := by
  simp [xmlSafeByte] at h
  tauto

/-- On `xmlSafeByte` input, `_escapeXML` is exactly the per-byte quote
expansion. -/
theorem escapeXML_safe (t : List Nat) (h : ∀ b ∈ t, xmlSafeByte b = true) :
    EXIF.escapeXML t = t.flatMap quotBlock := by
  unfold EXIF.escapeXML
  rw [replaceAll_no_occ [38] _ t
    (containsBytes_head_free _ t (fun b hb => (xmlSafeByte_spec (h b hb)).1))]
  rw [replaceAll_no_occ [60] _ t
    (containsBytes_head_free _ t (fun b hb => (xmlSafeByte_spec (h b hb)).2.1))]
  rw [replaceAll_no_occ [62] _ t
    (containsBytes_head_free _ t (fun b hb => (xmlSafeByte_spec (h b hb)).2.2.1))]
  rw [replaceAll_single 34 _ t,
    show (fun b : Nat => if b = 34 then asc "&quot;" else [b]) = quotBlock from rfl]
  rw [replaceAll_no_occ [39] _ _ (containsBytes_head_free _ _ ?_)]
  intro b hb
  rcases List.mem_flatMap.mp hb with ⟨a, ha, hba⟩
  rcases mem_quotBlock hba with rfl | hq
  · exact (xmlSafeByte_spec (h b ha)).2.2.2
  · simp [show asc "&quot;" = [38, 113, 117, 111, 116, 59] from rfl] at hq
    omega

/-- Bytes of the quote-expanded text are never `<`. -/
theorem quotExp_no_lt (t : List Nat) (h : ∀ b ∈ t, xmlSafeByte b = true) :
    ∀ x ∈ t.flatMap quotBlock, x ≠ 60 := by
  intro x hx
  rcases List.mem_flatMap.mp hx with ⟨a, ha, hxa⟩
  rcases mem_quotBlock hxa with rfl | hq
  · exact (xmlSafeByte_spec (h x ha)).2.1
  · simp [show asc "&quot;" = [38, 113, 117, 111, 116, 59] from rfl] at hq
    omega

theorem containsBytes_qstep (p1 : Nat) (ps : List Nat) (hp1 : p1 ≠ 113) (rest : List Nat) :
    containsBytes (38 :: p1 :: ps) (38 :: 113 :: 117 :: 111 :: 116 :: 59 :: rest) =
      containsBytes (38 :: p1 :: ps) rest := by
  have e1 : startBytes (38 :: p1 :: ps) (38 :: 113 :: 117 :: 111 :: 116 :: 59 :: rest) =
      false := by
    rw [startBytes_cons_eq]
    exact startBytes_cons_ne _ _ (Ne.symm hp1)
  rw [containsBytes_cons, e1,
    containsBytes_cons, startBytes_cons_ne _ _ (by decide : (113 : Nat) ≠ 38),
    containsBytes_cons, startBytes_cons_ne _ _ (by decide : (117 : Nat) ≠ 38),
    containsBytes_cons, startBytes_cons_ne _ _ (by decide : (111 : Nat) ≠ 38),
    containsBytes_cons, startBytes_cons_ne _ _ (by decide : (116 : Nat) ≠ 38),
    containsBytes_cons, startBytes_cons_ne _ _ (by decide : (59 : Nat) ≠ 38)]
  simp

/-- An entity pattern `&x…` with `x ≠ q` never occurs in quote-expanded
safe text. -/
theorem containsBytes_quotExp (p1 : Nat) (ps : List Nat) (hp1 : p1 ≠ 113) :
    ∀ t : List Nat, (∀ b ∈ t, xmlSafeByte b = true) →
      containsBytes (38 :: p1 :: ps) (t.flatMap quotBlock) = false := by
  intro t
  induction t with
  | nil => intro _; exact containsBytes_nil_of_ne _ (by simp)
  | cons b t' ih =>
    intro h
    rw [List.flatMap_cons]
    by_cases hb : b = 34
    · subst hb
      rw [show quotBlock 34 = [38, 113, 117, 111, 116, 59] from rfl]
      simp only [List.cons_append, List.nil_append]
      rw [containsBytes_qstep _ _ hp1]
      exact ih (fun x hx => h x (by simp [hx]))
    · rw [show quotBlock b = [b] from by simp [quotBlock, hb]]
      simp only [List.cons_append, List.nil_append]
      have hne : b ≠ 38 := (xmlSafeByte_spec (h b (by simp))).1
      rw [containsBytes_cons, startBytes_cons_ne _ _ hne,
        ih (fun x hx => h x (by simp [hx]))]
      rfl

/-- `replace(/&quot;/g, '"')` inverts the quote expansion. -/
theorem replaceAllGo_quot_inv :
    ∀ (fuel : Nat) (t : List Nat), (∀ b ∈ t, xmlSafeByte b = true) →
      (t.flatMap quotBlock).length ≤ fuel →
      replaceAllGo fuel (asc "&quot;") [34] (t.flatMap quotBlock) = t := by
  intro fuel
  induction fuel with
  | zero =>
    intro t h hl
    cases t with
    | nil => rfl
    | cons b t' =>
      exfalso
      have h1 : 1 ≤ (quotBlock b).length := by
        unfold quotBlock
        split
        · decide
        · simp
      rw [List.flatMap_cons, List.length_append] at hl
      omega
  | succ fuel ih =>
    intro t h hl
    cases t with
    | nil => rfl
    | cons b t' =>
      rw [List.flatMap_cons] at hl ⊢
      by_cases hb : b = 34
      · subst hb
        rw [show quotBlock 34 = [38, 113, 117, 111, 116, 59] from rfl] at hl ⊢
        simp only [List.cons_append, List.nil_append] at hl ⊢
        rw [replaceAllGo, if_pos ⟨by decide, by rw [show (asc "&quot;").length = 6 from rfl]; rfl⟩]
        rw [show (asc "&quot;").length = 6 from rfl]
        simp only [List.drop_succ_cons, List.drop_zero]
        rw [ih t' (fun x hx => h x (by simp [hx])) ?_]
        · rfl
        · simp only [List.length_cons] at hl
          omega
      · rw [show quotBlock b = [b] from by simp [quotBlock, hb]] at hl ⊢
        simp only [List.cons_append, List.nil_append] at hl ⊢
        have hne : b ≠ 38 := (xmlSafeByte_spec (h b (by simp))).1
        rw [replaceAllGo, if_neg ?_]
        · rw [ih t' (fun x hx => h x (by simp [hx])) ?_]
          simp only [List.length_cons] at hl
          omega
        · rintro ⟨-, heq⟩
          rw [show (asc "&quot;").length = 6 from rfl, List.take_succ_cons] at heq
          rw [show asc "&quot;" = 38 :: [113, 117, 111, 116, 59] from rfl] at heq
          exact hne (List.cons.injEq _ _ _ _ ▸ heq).1

/-- `_unescapeXML` inverts `_escapeXML` on text free of `& < > '`. -/
theorem unescape_escape (t : List Nat) (h : ∀ b ∈ t, xmlSafeByte b = true) :
    EXIF.unescapeXML (EXIF.escapeXML t) = t := by
  have hamp : containsBytes (asc "&amp;") (t.flatMap quotBlock) = false := by
    rw [show asc "&amp;" = 38 :: 97 :: [109, 112, 59] from rfl]
    exact containsBytes_quotExp 97 _ (by decide) t h
  have hlt : containsBytes (asc "&lt;") (t.flatMap quotBlock) = false := by
    rw [show asc "&lt;" = 38 :: 108 :: [116, 59] from rfl]
    exact containsBytes_quotExp 108 _ (by decide) t h
  have hgt : containsBytes (asc "&gt;") (t.flatMap quotBlock) = false := by
    rw [show asc "&gt;" = 38 :: 103 :: [116, 59] from rfl]
    exact containsBytes_quotExp 103 _ (by decide) t h
  have hapos : containsBytes (asc "&apos;") t = false := by
    rw [show asc "&apos;" = 38 :: [97, 112, 111, 115, 59] from rfl]
    exact containsBytes_head_free _ t (fun b hb => (xmlSafeByte_spec (h b hb)).1)
  rw [escapeXML_safe t h]
  unfold EXIF.unescapeXML
  rw [replaceAll_no_occ (asc "&amp;") [38] _ hamp,
    replaceAll_no_occ (asc "&lt;") [60] _ hlt,
    replaceAll_no_occ (asc "&gt;") [62] _ hgt,
    show replaceAll (asc "&quot;") [34] (t.flatMap quotBlock) = t from
      replaceAllGo_quot_inv _ t h le_rfl,
    replaceAll_no_occ (asc "&apos;") [39] t hapos]

theorem hexDigit_safe (d : Nat) : xmlSafeByte (hexDigit d) = true := by
  simp [xmlSafeByte, hexDigit]
  split <;> omega

theorem escByte_safe {c : Nat} (hc : xmlSafeByte c = true) :
    ∀ x ∈ escByte c, xmlSafeByte x = true := by
  intro x hx
  unfold escByte at hx
  split_ifs at hx
  · simp at hx; rcases hx with rfl | rfl <;> decide
  · simp at hx; rcases hx with rfl | rfl <;> decide
  · simp at hx; rcases hx with rfl | rfl <;> decide
  · simp at hx; rcases hx with rfl | rfl <;> decide
  · simp at hx; rcases hx with rfl | rfl <;> decide
  · simp at hx; rcases hx with rfl | rfl <;> decide
  · simp at hx; rcases hx with rfl | rfl <;> decide
  · simp only [List.mem_cons, List.not_mem_nil, or_false] at hx
    rcases hx with rfl | rfl | rfl | rfl | rfl | rfl
    · decide
    · decide
    · decide
    · decide
    · exact hexDigit_safe _
    · exact hexDigit_safe _
  · simp at hx; rw [hx]; exact hc

theorem escBytes_safe {s : List Nat} (hs : ∀ b ∈ s, xmlSafeByte b = true) :
    ∀ x ∈ escBytes s, xmlSafeByte x = true := by
  intro x hx
  rcases List.mem_flatMap.mp hx with ⟨a, ha, hxa⟩
  exact escByte_safe (hs a ha) x hxa

theorem quoteStr_safe {s : List Nat} (hs : ∀ b ∈ s, xmlSafeByte b = true) :
    ∀ x ∈ quoteStr s, xmlSafeByte x = true := by
  intro x hx
  rw [quoteStr] at hx
  rcases List.mem_cons.mp hx with rfl | hx
  · decide
  · rcases List.mem_append.mp hx with hx | hx
    · exact escBytes_safe hs x hx
    · simp at hx; rw [hx]; decide

theorem jsonStringifyVal_safe {v : JVal} (hv : xmlSafeVal v = true) :
    ∀ x ∈ jsonStringifyVal v, xmlSafeByte x = true := by
  cases v with
  | s s =>
    intro x hx
    rw [xmlSafeVal] at hv
    exact quoteStr_safe (by simpa [List.all_eq_true] using hv) x hx
  | b bv => simp [xmlSafeVal] at hv
  | bytes bs => simp [xmlSafeVal] at hv

theorem serField_safe {p : List Nat × JVal}
    (hk : p.1.all xmlSafeByte = true) (hv : xmlSafeVal p.2 = true) :
    ∀ x ∈ serField p, xmlSafeByte x = true := by
  intro x hx
  rw [serField] at hx
  rcases List.mem_append.mp hx with hx | hx
  · exact quoteStr_safe (by simpa [List.all_eq_true] using hk) x hx
  · rcases List.mem_cons.mp hx with rfl | hx
    · decide
    · exact jsonStringifyVal_safe hv x hx

theorem serFields_safe :
    ∀ r : Record, xmlSafeRecord r = true → ∀ x ∈ serFields r, xmlSafeByte x = true := by
  intro r
  induction r with
  | nil => intro _ x hx; simp [serFields] at hx
  | cons p ps ih =>
    intro hr x hx
    rw [xmlSafeRecord, List.all_cons, Bool.and_eq_true] at hr
    rw [Bool.and_eq_true] at hr
    cases ps with
    | nil =>
      rw [show serFields [p] = serField p from rfl] at hx
      exact serField_safe hr.1.1 hr.1.2 x hx
    | cons q ps' =>
      rw [show serFields (p :: q :: ps') = serField p ++ 44 :: serFields (q :: ps') from
        rfl] at hx
      rcases List.mem_append.mp hx with hx | hx
      · exact serField_safe hr.1.1 hr.1.2 x hx
      · rcases List.mem_cons.mp hx with rfl | hx
        · decide
        · exact ih hr.2 x hx

theorem jsonStringify_safe {r : Record} (hr : xmlSafeRecord r = true) :
    ∀ x ∈ jsonStringify r, xmlSafeByte x = true := by
  intro x hx
  rw [jsonStringify] at hx
  rcases List.mem_cons.mp hx with rfl | hx
  · decide
  · rcases List.mem_append.mp hx with hx | hx
    · exact serFields_safe r hr x hx
    · simp at hx; rw [hx]; decide

theorem xmlSafe_plain {r : Record} (hr : xmlSafeRecord r = true) :
    plainRecord r = true := by
  simp only [xmlSafeRecord, plainRecord, List.all_eq_true] at hr ⊢
  intro p hp
  have := (hr p hp)
  rw [Bool.and_eq_true] at this
  cases h : p.2 with
  | s s => rfl
  | b bv => rw [h] at this; simp [xmlSafeVal] at this
  | bytes bs => rw [h] at this; simp [xmlSafeVal] at this

theorem getField_xmlSafe {md : Record} {k : List Nat} {v : JVal}
    (hsafe : xmlSafeRecord md = true) (hget : getField md k = some v) :
    ∃ s, v = .s s ∧ ∀ b ∈ s, xmlSafeByte b = true := by
  rw [getField] at hget
  rcases hfind : md.find? (fun p => p.1 = k) with - | p
  · rw [hfind] at hget; simp at hget
  · rw [hfind] at hget
    simp at hget
    have hmem := List.mem_of_find?_eq_some hfind
    simp only [xmlSafeRecord, List.all_eq_true] at hsafe
    have hp := hsafe p hmem
    rw [Bool.and_eq_true] at hp
    rcases hv : p.2 with s | bv | bs
    · refine ⟨s, by rw [← hget, hv], ?_⟩
      have := hp.2
      rw [hv, xmlSafeVal] at this
      simpa [List.all_eq_true] using this
    · exfalso; have := hp.2; rw [hv] at this; simp [xmlSafeVal] at this
    · exfalso; have := hp.2; rw [hv] at this; simp [xmlSafeVal] at this

theorem validateMetadata_truthy {m : Record} (h : ID3.validateMetadata m = .ok ()) :
    truthy (getField m (asc "contentType")) = true ∧
      truthy (getField m (asc "origin")) = true ∧
      truthy (getField m (asc "created")) = true := by
  rw [ID3.validateMetadata] at h
  split_ifs at h with h1 h2 h3
  refine ⟨?_, ?_, ?_⟩ <;> simp_all

theorem getD_append_add (pre x : List Nat) (k d : Nat) :
    (pre ++ x).getD (pre.length + k) d = x.getD k d := by
  have h := drop_append_add pre x k
  have h2 := congrArg (fun l : List Nat => l[0]?) h
  simp only [List.getElem?_drop, Nat.add_zero] at h2
  simp [List.getD_eq_getElem?_getD, h2]

/-- A buffer made of a prefix followed by well-formed segment images
re-parses, from the end of the prefix, to exactly those segments. -/
theorem segLoopGo_replay :
    ∀ (segs : List (List Nat)) (pre : List Nat) (fuel : Nat),
      EXIF.segsWF segs → segs.flatten.length ≤ fuel →
      EXIF.segLoopGo fuel (pre ++ segs.flatten) pre.length = .ok segs := by
  intro segs
  induction segs with
  | nil =>
    intro pre fuel _ _
    rw [List.flatten_nil, List.append_nil]
    cases fuel with
    | zero => rfl
    | succ fuel => rw [EXIF.segLoopGo, if_neg (by omega)]
  | cons s rest ih =>
    intro pre fuel hwf hfuel
    rcases hwf with ⟨hs, hrest⟩
    rw [List.flatten_cons] at hfuel ⊢
    rw [List.length_append] at hfuel
    have hslen : 2 ≤ s.length := by
      rcases hs with hs | hs
      · exact le_trans (by omega) hs.1
      · exact hs.2.1
    cases fuel with
    | zero => omega
    | succ fuel =>
      have hoff : pre.length < (pre ++ (s ++ rest.flatten)).length := by
        rw [List.length_append, List.length_append]; omega
      have hg0 : (pre ++ (s ++ rest.flatten)).getD pre.length 0 = s.getD 0 0 := by
        have h := getD_append_add pre (s ++ rest.flatten) 0 0
        rw [Nat.add_zero] at h
        rw [h, getD_append_left (by omega) 0]
      have hg1 : (pre ++ (s ++ rest.flatten)).getD (pre.length + 1) 0 = s.getD 1 0 := by
        rw [getD_append_add pre (s ++ rest.flatten) 1 0, getD_append_left (by omega) 0]
      have h255 : s.getD 0 0 = 255 := by
        rcases hs with hs | hs
        · exact hs.2.1
        · exact hs.2.2.1
      have hread : EXIF.readUInt16BE (pre ++ (s ++ rest.flatten)) pre.length =
          .ok (s.getD 0 0 * 256 + s.getD 1 0) := by
        rw [EXIF.readUInt16BE,
          if_pos (by rw [List.length_append, List.length_append]; omega), hg0, hg1]
      rw [EXIF.segLoopGo, if_pos hoff]
      rw [if_neg (by rw [hg0, h255]; exact fun h => h rfl)]
      simp only [hread]
      rcases hs with hs | ⟨hnil, hsos⟩
      · obtain ⟨h4, hb0, hmark, hlen⟩ := hs
        rw [if_neg hmark]
        have hread2 : EXIF.readUInt16BE (pre ++ (s ++ rest.flatten)) (pre.length + 2) =
            .ok (s.getD 2 0 * 256 + s.getD 3 0) := by
          rw [EXIF.readUInt16BE,
            if_pos (by rw [List.length_append, List.length_append]; omega)]
          rw [getD_append_add pre (s ++ rest.flatten) 2 0, getD_append_left (by omega) 0]
          rw [show pre.length + 2 + 1 = pre.length + 3 by omega]
          rw [getD_append_add pre (s ++ rest.flatten) 3 0, getD_append_left (by omega) 0]
        simp only [hread2]
        rw [if_neg (by rw [List.length_append, List.length_append]; omega)]
        have hrec : EXIF.segLoopGo fuel (pre ++ (s ++ rest.flatten))
            (pre.length + 2 + (s.getD 2 0 * 256 + s.getD 3 0)) = .ok rest := by
          have hregroup : pre ++ (s ++ rest.flatten) = (pre ++ s) ++ rest.flatten :=
            (List.append_assoc pre s rest.flatten).symm
          have hoff2 : pre.length + 2 + (s.getD 2 0 * 256 + s.getD 3 0) =
              (pre ++ s).length := by rw [List.length_append]; omega
          rw [hregroup, hoff2]
          exact ih (pre ++ s) fuel hrest (by omega)
        simp only [hrec]
        have hslice : slice (pre ++ (s ++ rest.flatten)) pre.length
            (pre.length + 2 + (s.getD 2 0 * 256 + s.getD 3 0)) = s := by
          rw [show pre.length + 2 + (s.getD 2 0 * 256 + s.getD 3 0) =
            pre.length + s.length by omega]
          rw [slice_pre0]
          exact List.take_left s rest.flatten
        rw [hslice]
      · subst hnil
        obtain ⟨h2, hb0, hb1⟩ := hsos
        rw [List.flatten_nil, List.append_nil]
        rw [if_pos (by rw [hb0, hb1])]
        rw [List.drop_left]

/-- `_parseJPEGSegments` on `SOI ++ well-formed segment images`. -/
theorem parseJPEGSegments_replay (segs : List (List Nat)) (h : EXIF.segsWF segs) :
    EXIF.parseJPEGSegments ([255, 216] ++ segs.flatten) = .ok ([255, 216] :: segs) := by
  rw [EXIF.parseJPEGSegments]
  have hread : EXIF.readUInt16BE ([255, 216] ++ segs.flatten) 0 = .ok 65496 := by
    rw [EXIF.readUInt16BE, if_pos (by simp)]
    have e0 : ([255, 216] ++ segs.flatten).getD 0 0 = 255 := rfl
    have e1 : ([255, 216] ++ segs.flatten).getD (0 + 1) 0 = 216 := rfl
    rw [e0, e1]
  simp only [hread]
  rw [if_neg (fun hh => hh rfl)]
  rw [EXIF.segLoop]
  have hlen : ([255, 216] ++ segs.flatten).length - 2 = segs.flatten.length := by
    rw [List.length_append]
    simp
  rw [hlen]
  have hloop := segLoopGo_replay segs [255, 216] segs.flatten.length h le_rfl
  rw [show ([255, 216] : List Nat).length = 2 from rfl] at hloop
  simp only [hloop]
  have hslice : slice ([255, 216] ++ segs.flatten) 0 2 = [255, 216] := by
    rw [slice_zero_take]
    rfl
  rw [hslice]

theorem startBytes_of_mismatches :
    ∀ (op s : List Nat), mismatches op s = true → ∀ y, startBytes op (s ++ y) = false := by
  intro op
  induction op with
  | nil => intro s h y; simp [mismatches] at h
  | cons a p ih =>
    intro s h y
    cases s with
    | nil => simp [mismatches] at h
    | cons b l =>
      rw [mismatches, Bool.or_eq_true] at h
      rw [List.cons_append]
      rcases h with h | h
      · exact startBytes_cons_ne _ _ (Ne.symm (by simpa using h))
      · by_cases hab : a = b
        · subst hab
          rw [startBytes_cons_eq]
          exact ih l h y
        · exact startBytes_cons_ne _ _ (Ne.symm hab)

theorem betweenFirst_skip_chunk (op cl : List Nat) :
    ∀ (T y : List Nat), noStartIn op T = true →
      EXIF.betweenFirst op cl (T ++ y) = EXIF.betweenFirst op cl y := by
  intro T
  induction T with
  | nil => intro y _; rw [List.nil_append]
  | cons c T' ih =>
    intro y h
    rw [noStartIn, Bool.and_eq_true] at h
    rw [List.cons_append, EXIF.betweenFirst]
    have hsb := startBytes_of_mismatches op (c :: T') h.1 y
    rw [List.cons_append] at hsb
    rw [if_neg (by rw [hsb]; exact Bool.false_ne_true)]
    exact ih y h.2

theorem betweenFirst_skip_free (op' cl : List Nat) :
    ∀ (v y : List Nat), (∀ b ∈ v, b ≠ 60) →
      EXIF.betweenFirst (60 :: op') cl (v ++ y) = EXIF.betweenFirst (60 :: op') cl y := by
  intro v
  induction v with
  | nil => intro y _; rw [List.nil_append]
  | cons c v' ih =>
    intro y h
    rw [List.cons_append, EXIF.betweenFirst]
    rw [if_neg (by rw [startBytes_cons_ne _ _ (h c (by simp))]; exact Bool.false_ne_true)]
    exact ih y (fun b hb => h b (by simp [hb]))

theorem firstTo_cons (cl : List Nat) (c : Nat) (rest : List Nat) :
    EXIF.firstTo cl (c :: rest) =
      if startBytes cl (c :: rest) then some [] else
        (EXIF.firstTo cl rest).map (fun x => c :: x) := rfl

theorem firstTo_prefix (cl' : List Nat) :
    ∀ (J post : List Nat), (∀ b ∈ J, b ≠ 60) →
      EXIF.firstTo (60 :: cl') (J ++ ((60 :: cl') ++ post)) = some J := by
  intro J
  induction J with
  | nil =>
    intro post _
    rw [List.nil_append, List.cons_append, firstTo_cons]
    rw [if_pos (by rw [← List.cons_append]; simp [startBytes, List.take_left])]
  | cons b J' ih =>
    intro post h
    rw [List.cons_append, firstTo_cons]
    rw [if_neg (by
      rw [startBytes_cons_ne _ _ (h b (by simp))]
      exact Bool.false_ne_true)]
    rw [ih post (fun x hx => h x (by simp [hx]))]
    rfl

theorem betweenFirst_found (op' cl' : List Nat) (J post : List Nat)
    (hJ : ∀ b ∈ J, b ≠ 60) :
    EXIF.betweenFirst (60 :: op') (60 :: cl')
      ((60 :: op') ++ (J ++ ((60 :: cl') ++ post))) = some J := by
  rw [List.cons_append, EXIF.betweenFirst]
  rw [if_pos (by rw [← List.cons_append]; simp [startBytes, List.take_left])]
  have hdrop : (60 :: (op' ++ (J ++ ((60 :: cl') ++ post)))).drop (60 :: op').length =
      J ++ ((60 :: cl') ++ post) := by
    rw [← List.cons_append, List.drop_left]
  rw [hdrop, firstTo_prefix cl' J post hJ]

theorem del2_set_ver (r : Record) (v : JVal) :
    delField (delField (setField r (asc "_verified") v) (asc "_verified"))
      (asc "_signatureValid") =
    delField (delField r (asc "_verified")) (asc "_signatureValid") := by
  rw [delField_setField_same]

theorem del2_set_sigv (r : Record) (v : JVal) :
    delField (delField (setField r (asc "_signatureValid") v) (asc "_verified"))
      (asc "_signatureValid") =
    delField (delField r (asc "_verified")) (asc "_signatureValid") := by
  rw [delField_setField_ne _ _ _ _ (by decide), delField_setField_same]

/-- `_createAPP1Segment(data, 'XMP')` when the data fits. -/
theorem createAPP1_xmp (X : List Nat) (hfit : 31 + X.length ≤ 65535) :
    EXIF.createAPP1Segment X true =
      .ok ([255, 225] ++ [(31 + X.length) / 256, (31 + X.length) % 256] ++
        EXIF.xmpIdentifier ++ X) := by
  rw [EXIF.createAPP1Segment]
  simp only [if_true]
  rw [show (2 + 2 + EXIF.xmpIdentifier.length + X.length) - 2 = 31 + X.length by
    rw [show EXIF.xmpIdentifier.length = 29 from rfl]; omega]
  rw [if_neg (by omega)]

/-- The XMP APP1 segment is well formed in the re-parsing sense. -/
theorem xmpSeg_segWF (X : List Nat) (hfit : 31 + X.length ≤ 65535) :
    EXIF.segWF ([255, 225] ++ [(31 + X.length) / 256, (31 + X.length) % 256] ++
      EXIF.xmpIdentifier ++ X) := by
  have hshape : ([255, 225] ++ [(31 + X.length) / 256, (31 + X.length) % 256] ++
      EXIF.xmpIdentifier ++ X) =
      255 :: 225 :: (31 + X.length) / 256 :: (31 + X.length) % 256 ::
        (EXIF.xmpIdentifier ++ X) := by
    simp [List.append_assoc]
  rw [hshape]
  refine ⟨?_, rfl, by norm_num, ?_⟩
  · simp
  · have hlen : (255 :: 225 :: (31 + X.length) / 256 :: (31 + X.length) % 256 ::
        (EXIF.xmpIdentifier ++ X)).length = 33 + X.length := by
      simp [List.length_append]
      rw [show EXIF.xmpIdentifier.length = 29 from rfl]
      omega
    rw [hlen]
    have hD2 : (255 :: 225 :: (31 + X.length) / 256 :: (31 + X.length) % 256 ::
        (EXIF.xmpIdentifier ++ X)).getD 2 0 = (31 + X.length) / 256 := rfl
    have hD3 : (255 :: 225 :: (31 + X.length) / 256 :: (31 + X.length) % 256 ::
        (EXIF.xmpIdentifier ++ X)).getD 3 0 = (31 + X.length) % 256 := rfl
    rw [hD2, hD3]
    omega

theorem escapeXML_no_lt (s : List Nat) (hs : ∀ b ∈ s, xmlSafeByte b = true) :
    ∀ b ∈ EXIF.escapeXML s, b ≠ 60 := by
  rw [escapeXML_safe s hs]
  exact quotExp_no_lt s hs

/-- Skipping one whole `<aicontag:name>…</aicontag:name>` element while
searching for the metadata element. -/
theorem betweenFirst_skip_elem (op cl : List Nat) (name : String) (content y : List Nat)
    (hox : ∃ op', op = 60 :: op')
    (hno : noStartIn op (asc ("<aicontag:" ++ name ++ ">")) = true)
    (hnc : noStartIn op (asc ("</aicontag:" ++ name ++ ">")) = true)
    (hfree : ∀ b ∈ content, b ≠ 60) :
    EXIF.betweenFirst op cl (EXIF.xmpElem name content ++ y) =
      EXIF.betweenFirst op cl y := by
  rw [EXIF.xmpElem, List.append_assoc, List.append_assoc]
  rw [betweenFirst_skip_chunk _ _ _ _ hno]
  obtain ⟨op', hop⟩ := hox
  rw [hop, betweenFirst_skip_free _ _ _ _ hfree, ← hop]
  rw [betweenFirst_skip_chunk _ _ _ _ hnc]

/-- The metadata element is found, with exactly its content returned. -/
theorem betweenFirst_found_elem (J post : List Nat) (hJ : ∀ b ∈ J, b ≠ 60) :
    EXIF.betweenFirst (asc "<aicontag:metadata>") (asc "</aicontag:metadata>")
      (EXIF.xmpElem "metadata" J ++ post) = some J := by
  rw [EXIF.xmpElem, List.append_assoc, List.append_assoc]
  have ho : asc ("<aicontag:" ++ "metadata" ++ ">") = asc "<aicontag:metadata>" := by decide
  have hc : asc ("</aicontag:" ++ "metadata" ++ ">") = asc "</aicontag:metadata>" := by decide
  rw [ho, hc]
  have hop : asc "<aicontag:metadata>" = 60 :: asc "aicontag:metadata>" := by decide
  have hcl : asc "</aicontag:metadata>" = 60 :: asc "/aicontag:metadata>" := by decide
  rw [hop, hcl]
  exact betweenFirst_found _ _ J post hJ

/-- `xmpOptElem` always succeeds on an XML-safe record, and whatever it
produces is skipped by the metadata-element search. -/
theorem xmpOptElem_skip (md : Record) (key name : String)
    (hsafe : xmlSafeRecord md = true)
    (hno : noStartIn (asc "<aicontag:metadata>") (asc ("<aicontag:" ++ name ++ ">")) = true)
    (hnc : noStartIn (asc "<aicontag:metadata>") (asc ("</aicontag:" ++ name ++ ">")) = true) :
    ∃ part, EXIF.xmpOptElem md key name = .ok part ∧
      ∀ (cl y : List Nat),
        EXIF.betweenFirst (asc "<aicontag:metadata>") cl (part ++ y) =
          EXIF.betweenFirst (asc "<aicontag:metadata>") cl y := by
  by_cases ht : truthy (getField md (asc key)) = true
  · rcases hg : getField md (asc key) with - | v
    · rw [hg] at ht; simp [truthy] at ht
    · obtain ⟨s, hv, hs⟩ := getField_xmlSafe hsafe hg
      subst hv
      have hpart : EXIF.xmpOptElem md key name =
          .ok (EXIF.xmpElem name (EXIF.escapeXML s)) := by
        rw [EXIF.xmpOptElem, if_pos ht, hg]
        rfl
      refine ⟨_, hpart, fun cl y => ?_⟩
      exact betweenFirst_skip_elem _ cl name _ y
        ⟨asc "aicontag:metadata>", by decide⟩ hno hnc (escapeXML_no_lt s hs)
  · have hpart : EXIF.xmpOptElem md key name = .ok [] := by
      rw [EXIF.xmpOptElem, if_neg ht]
    exact ⟨[], hpart, fun cl y => by rw [List.nil_append]⟩


/-- `_createXMPData` succeeds on a validated XML-safe record and
`_parseXMPData` recovers the record exactly from its output. -/
theorem createXMP_parse (md : Record) (opts : ID3.EmbedOpts)
    (hval : ID3.validateMetadata md = .ok ()) (hsafe : xmlSafeRecord md = true) :
    ∃ X, EXIF.createXMPData md opts = .ok X ∧ EXIF.parseXMPData X = some md := by
  obtain ⟨ht1, ht2, ht3⟩ := validateMetadata_truthy hval
  rcases hg1 : getField md (asc "contentType") with - | v1
  · rw [hg1] at ht1; simp [truthy] at ht1
  obtain ⟨s1, hv1, hs1⟩ := getField_xmlSafe hsafe hg1
  subst hv1
  rcases hg2 : getField md (asc "origin") with - | v2
  · rw [hg2] at ht2; simp [truthy] at ht2
  obtain ⟨s2, hv2, hs2⟩ := getField_xmlSafe hsafe hg2
  subst hv2
  rcases hg3 : getField md (asc "created") with - | v3
  · rw [hg3] at ht3; simp [truthy] at ht3
  obtain ⟨s3, hv3, hs3⟩ := getField_xmlSafe hsafe hg3
  subst hv3
  obtain ⟨ap, hap, hapskip⟩ :=
    xmpOptElem_skip md "author" "author" hsafe (by decide) (by decide)
  obtain ⟨dp, hdp, hdpskip⟩ :=
    xmpOptElem_skip md "description" "description" hsafe (by decide) (by decide)
  obtain ⟨lp, hlp, hlpskip⟩ :=
    xmpOptElem_skip md "license" "license" hsafe (by decide) (by decide)
  have he1 : EXIF.escXMLVal (getField md (asc "contentType")) =
      .ok (EXIF.escapeXML s1) := by rw [hg1]; rfl
  have he2 : EXIF.escXMLVal (getField md (asc "origin")) =
      .ok (EXIF.escapeXML s2) := by rw [hg2]; rfl
  have he3 : EXIF.escXMLVal (getField md (asc "created")) =
      .ok (EXIF.escapeXML s3) := by rw [hg3]; rfl
  have hcreate : EXIF.createXMPData md opts = .ok (
      asc "<?xml version=\"1.0\" encoding=\"UTF-8\"?>\n<x:xmpmeta xmlns:x=\"adobe:ns:meta/\" x:xmptk=\"AI Content Tagging Tools 1.0\">\n  <rdf:RDF xmlns:rdf=\"http://www.w3.org/1999/02/22-rdf-syntax-ns#\">\n    <rdf:Description rdf:about=\"\" xmlns:aicontag=\"http://aicontenttagging.org/schemas/1.0/\">\n      " ++
      EXIF.xmpElem "contentType" (EXIF.escapeXML s1) ++ asc "\n      " ++
      EXIF.xmpElem "origin" (EXIF.escapeXML s2) ++ asc "\n      " ++
      EXIF.xmpElem "created" (EXIF.escapeXML s3) ++ asc "\n      " ++
      ap ++ asc "\n      " ++
      dp ++ asc "\n      " ++
      lp ++ asc "\n      " ++
      EXIF.xmpElem "metadata" (EXIF.escapeXML (jsonStringify md)) ++ asc "\n      " ++
      (if opts.includeChecksum then EXIF.xmpElem "checksum" (EXIF.createChecksum md)
       else []) ++
      asc "\n    </rdf:Description>\n  </rdf:RDF>\n</x:xmpmeta>") := by
    rw [EXIF.createXMPData]
    simp only [he1, he2, he3, hap, hdp, hlp]
  refine ⟨_, hcreate, ?_⟩
  rw [EXIF.parseXMPData]
  simp only [List.append_assoc]
  rw [betweenFirst_skip_chunk (asc "<aicontag:metadata>") (asc "</aicontag:metadata>")
    (asc "<?xml version=\"1.0\" encoding=\"UTF-8\"?>\n<x:xmpmeta xmlns:x=\"adobe:ns:meta/\" x:xmptk=\"AI Content Tagging Tools 1.0\">\n  <rdf:RDF xmlns:rdf=\"http://www.w3.org/1999/02/22-rdf-syntax-ns#\">\n    <rdf:Description rdf:about=\"\" xmlns:aicontag=\"http://aicontenttagging.org/schemas/1.0/\">\n      ") _ (by decide)]
  rw [betweenFirst_skip_elem (asc "<aicontag:metadata>") (asc "</aicontag:metadata>")
    "contentType" (EXIF.escapeXML s1) _ ⟨asc "aicontag:metadata>", by decide⟩
    (by decide) (by decide) (escapeXML_no_lt s1 hs1)]
  rw [betweenFirst_skip_chunk (asc "<aicontag:metadata>") (asc "</aicontag:metadata>")
    (asc "\n      ") _ (by decide)]
  rw [betweenFirst_skip_elem (asc "<aicontag:metadata>") (asc "</aicontag:metadata>")
    "origin" (EXIF.escapeXML s2) _ ⟨asc "aicontag:metadata>", by decide⟩
    (by decide) (by decide) (escapeXML_no_lt s2 hs2)]
  rw [betweenFirst_skip_chunk (asc "<aicontag:metadata>") (asc "</aicontag:metadata>")
    (asc "\n      ") _ (by decide)]
  rw [betweenFirst_skip_elem (asc "<aicontag:metadata>") (asc "</aicontag:metadata>")
    "created" (EXIF.escapeXML s3) _ ⟨asc "aicontag:metadata>", by decide⟩
    (by decide) (by decide) (escapeXML_no_lt s3 hs3)]
  rw [betweenFirst_skip_chunk (asc "<aicontag:metadata>") (asc "</aicontag:metadata>")
    (asc "\n      ") _ (by decide)]
  rw [hapskip]
  rw [betweenFirst_skip_chunk (asc "<aicontag:metadata>") (asc "</aicontag:metadata>")
    (asc "\n      ") _ (by decide)]
  rw [hdpskip]
  rw [betweenFirst_skip_chunk (asc "<aicontag:metadata>") (asc "</aicontag:metadata>")
    (asc "\n      ") _ (by decide)]
  rw [hlpskip]
  rw [betweenFirst_skip_chunk (asc "<aicontag:metadata>") (asc "</aicontag:metadata>")
    (asc "\n      ") _ (by decide)]
  rw [betweenFirst_found_elem (EXIF.escapeXML (jsonStringify md)) _
    (escapeXML_no_lt (jsonStringify md) (jsonStringify_safe hsafe))]
  show jsonParse (EXIF.unescapeXML (EXIF.escapeXML (jsonStringify md))) = some md
  rw [unescape_escape (jsonStringify md) (jsonStringify_safe hsafe),
    jsonParse_stringify md (xmlSafe_plain hsafe)]

theorem isAPP1_of (s : List Nat) (h2 : 2 ≤ s.length) (h0 : s.getD 0 0 = 255)
    (h1 : s.getD 1 0 = 225) : EXIF.isAPP1Segment s = true := by
  rw [EXIF.isAPP1Segment]
  apply decide_eq_true
  refine ⟨h2, ?_⟩
  rw [h0, h1]

/-- The JPEG half of the round-trip: embedding a validated, XML-safe
record into a well-formed JPEG (with the default XMP/preserve options)
and extracting it back returns the record up to the derived
`_verified` / `_signatureValid` flags. -/
theorem JPEG_roundtrip (hOpts : EXIF.Options) (segs : List (List Nat)) (R : Record)
    (opts : ID3.EmbedOpts)
    (hfmt : hOpts.preferredFormat = .xmp)
    (hpres : hOpts.preserveExisting = true)
    (hwf : EXIF.segsWF segs) (hne : segs ≠ [])
    (hval : ID3.validateMetadata R = .ok ())
    (hsafe : xmlSafeRecord R = true)
    (hfit : 31 + ((EXIF.createXMPData R opts).toOption.getD []).length ≤ 65535) :
    ∃ out M, EXIF.embedMetadata hOpts ([255, 216] ++ segs.flatten) R opts = .ok out ∧
      EXIF.extractMetadata out = .ok (some M) ∧
      delField (delField M (asc "_verified")) (asc "_signatureValid") =
        delField (delField R (asc "_verified")) (asc "_signatureValid") := by
  obtain ⟨X, hX, hparseX⟩ := createXMP_parse R opts hval hsafe
  have hfitX : 31 + X.length ≤ 65535 := by
    rw [hX] at hfit
    simpa [Except.toOption] using hfit
  have happ1 := createAPP1_xmp X hfitX
  set seg := [255, 225] ++ [(31 + X.length) / 256, (31 + X.length) % 256] ++
    EXIF.xmpIdentifier ++ X with hsegdef
  have hsegwf := xmpSeg_segWF X hfitX
  have hshape : seg = 255 :: 225 :: (31 + X.length) / 256 :: (31 + X.length) % 256 ::
      (EXIF.xmpIdentifier ++ X) := by
    rw [hsegdef]; simp
  have hparseC := parseJPEGSegments_replay segs hwf
  have hfilter : segs.filter
      (fun s => hOpts.preserveExisting || !EXIF.isMetadataSegment s) = segs := by
    rw [hpres]
    exact List.filter_eq_self.mpr (fun a _ => by simp)
  have hembedJ : EXIF.embedJPEGMetadata hOpts ([255, 216] ++ segs.flatten) R opts =
      .ok ([255, 216] ++ (seg :: segs).flatten) := by
    rw [EXIF.embedJPEGMetadata]
    simp only [hparseC, hX, happ1, hfmt]
    rw [if_neg (by simp)]
    simp only [hfilter, Option.getD_none, List.flatten_cons]
    simp [List.append_assoc]
  have hwf2 : EXIF.segsWF (seg :: segs) := ⟨Or.inl hsegwf, hwf⟩
  have hparseOut := parseJPEGSegments_replay (seg :: segs) hwf2
  have hxmp : EXIF.extractXMPFromSegment seg = some X := by
    rw [EXIF.extractXMPFromSegment, hshape]
    have hslice : slice (255 :: 225 :: (31 + X.length) / 256 :: (31 + X.length) % 256 ::
        (EXIF.xmpIdentifier ++ X)) 4 (4 + 29) = EXIF.xmpIdentifier := by
      rw [slice]
      simp only [List.drop_succ_cons, List.drop_zero]
      rw [show (4 + 29 - 4 : Nat) = 29 from rfl]
      exact List.take_left' rfl
    rw [hslice]
    rw [if_pos (by decide)]
    simp only [List.drop_succ_cons]
    rw [List.drop_left' (show EXIF.xmpIdentifier.length = 29 from rfl)]
  have hext : EXIF.extractJPEGMetadata ([255, 216] ++ (seg :: segs).flatten) =
      .ok (some R) := by
    rw [EXIF.extractJPEGMetadata]
    simp only [hparseOut]
    rw [EXIF.extractSegLoop]
    rw [if_neg (by decide)]
    rw [EXIF.extractSegLoop]
    rw [if_pos (by
      rw [hshape]
      exact isAPP1_of _ (by simp) rfl rfl)]
    simp only [hxmp, hparseX]
  have hdet : EXIF.detectImageFormat ([255, 216] ++ (seg :: segs).flatten) = .jpeg := by
    rw [List.flatten_cons, hshape]
    rw [EXIF.detectImageFormat]
    rw [if_neg (by simp)]
    rw [if_pos (by constructor <;> simp)]
  have hdetIn : EXIF.detectImageFormat ([255, 216] ++ segs.flatten) = .jpeg := by
    rcases segs with - | ⟨s0, rest⟩
    · exact absurd rfl hne
    · rcases hwf with ⟨hs0, -⟩
      have h2 : 2 ≤ s0.length := by
        rcases hs0 with h | h
        · exact le_trans (by omega) h.1
        · exact h.2.1
      have h255 : s0.getD 0 0 = 255 := by
        rcases hs0 with h | h
        · exact h.2.1
        · exact h.2.2.1
      rcases s0 with - | ⟨b0, s0'⟩
      · simp at h2
      · have hb0 : b0 = 255 := by simpa using h255
        subst hb0
        have h1 : 1 ≤ s0'.length := by simpa using h2
        rw [List.flatten_cons]
        rw [EXIF.detectImageFormat]
        rw [if_neg (by simp; omega)]
        rw [if_pos (by refine ⟨?_, ?_, ?_⟩ <;> simp)]
  have hvalE : EXIF.validateMetadata R = .ok () := hval
  refine ⟨[255, 216] ++ (seg :: segs).flatten, ?M, ?_, ?_, ?_⟩
  case M =>
    exact (let m1 :=
        if truthy (getField R (asc "checksum")) then
          setField R (asc "_verified")
            (.b (EXIF.verifyChecksum R ([255, 216] ++ (seg :: segs).flatten)))
        else R
      if truthy (getField m1 (asc "signature")) then
        setField m1 (asc "_signatureValid") (.b true)
      else m1)
  · rw [EXIF.embedMetadata]
    simp only [hvalE, hdetIn, hembedJ]
  · rw [EXIF.extractMetadata]
    simp only [hdet, hext]
  · simp only []
    split <;> split <;>
      simp only [del2_set_sigv, del2_set_ver]

theorem isAI_normFrame (f : ID3.Frame) :
    ID3.isAIMetadataFrame (ID3.normFrame f) = ID3.isAIMetadataFrame f := rfl

theorem normFrame_idem (f : ID3.Frame) :
    ID3.normFrame (ID3.normFrame f) = ID3.normFrame f := rfl

theorem frameWF_normFrame (f : ID3.Frame) (h : ID3.frameWF f) :
    ID3.frameWF (ID3.normFrame f) := h

theorem length_le_flatten_build (FR : List ID3.Frame)
    (hwf : ∀ f ∈ FR, ID3.frameWF f) :
    FR.length ≤ ((FR.map ID3.buildFrame).flatten).length := by
  induction FR with
  | nil => simp
  | cons f fs ih =>
    obtain ⟨h4, -, -, -⟩ := hwf f (by simp)
    have hb := buildFrame_length f h4
    have hrec := ih (fun g hg => hwf g (by simp [hg]))
    simp only [List.map_cons, List.flatten_cons, List.length_append, List.length_cons]
    omega

/-- `_parseID3Frames` on the tag `_buildID3Tag` produces (plus any
payload) returns the normalised frames. -/
theorem parseID3Frames_build (FR : List ID3.Frame) (P : List Nat)
    (hwf : ∀ f ∈ FR, ID3.frameWF f) :
    ID3.parseID3Frames (ID3.buildID3Tag FR ++ P)
      { hasID3 := true
        tagSize := ((FR.map ID3.buildFrame).flatten).length + 1024 + 10
        majorVersion := 4, minorVersion := 0, flags := 0, existingFrames := [] } =
      .ok (FR.map ID3.normFrame) := by
  rw [ID3.parseID3Frames, ID3.parseFramesLoop]
  have hfuel : FR.length + 1 ≤ ((FR.map ID3.buildFrame).flatten).length + 1024 := by
    have := length_le_flatten_build FR hwf
    omega
  have happly := parseFramesLoopGo_build FR
    (((FR.map ID3.buildFrame).flatten).length + 1024)
    ([73, 68, 51, 4, 0, 0] ++
      ID3.writeSynchsafeInt (((FR.map ID3.buildFrame).flatten).length + 1024)) P
    hwf hfuel
  have hplen : ([73, 68, 51, 4, 0, 0] ++
      ID3.writeSynchsafeInt (((FR.map ID3.buildFrame).flatten).length + 1024)).length
      = 10 := by
    rw [List.length_append, writeSynchsafeInt_length]
    rfl
  rw [hplen] at happly
  rw [buildID3Tag_append FR P]
  rw [show ((FR.map ID3.buildFrame).flatten).length + 1024 + 10 - 10 =
    ((FR.map ID3.buildFrame).flatten).length + 1024 by omega]
  rw [show ((FR.map ID3.buildFrame).flatten).length + 1024 + 10 =
    10 + (((FR.map ID3.buildFrame).flatten).length + 1024) by omega]
  exact happly

theorem buildID3Tag_drop (FR : List ID3.Frame) (P : List Nat) :
    (ID3.buildID3Tag FR ++ P).drop
      (((FR.map ID3.buildFrame).flatten).length + 1024 + 10) = P := by
  rw [buildID3Tag_append FR P]
  have hplen : ([73, 68, 51, 4, 0, 0] ++
      ID3.writeSynchsafeInt (((FR.map ID3.buildFrame).flatten).length + 1024)).length
      = 10 := by
    rw [List.length_append, writeSynchsafeInt_length]
    rfl
  have h1 : ((FR.map ID3.buildFrame).flatten).length + 1024 + 10 =
      ([73, 68, 51, 4, 0, 0] ++
        ID3.writeSynchsafeInt (((FR.map ID3.buildFrame).flatten).length + 1024)).length +
        (((FR.map ID3.buildFrame).flatten).length + 1024) := by
    rw [hplen]
    omega
  rw [h1, drop_append_add, drop_append_add]
  exact List.drop_left' (by simp)

theorem flatten_filter_le (p : ID3.Frame → Bool) :
    ∀ L : List ID3.Frame,
      (((L.filter p).map ID3.buildFrame).flatten).length ≤
        ((L.map ID3.buildFrame).flatten).length := by
  intro L
  induction L with
  | nil => simp
  | cons f fs ih =>
    rw [List.filter_cons]
    split
    · simp only [List.map_cons, List.flatten_cons, List.length_append]
      omega
    · simp only [List.map_cons, List.flatten_cons, List.length_append]
      omega

theorem flatten_build_norm (FR : List ID3.Frame) (hwf : ∀ f ∈ FR, ID3.frameWF f) :
    (((FR.map ID3.normFrame).map ID3.buildFrame).flatten).length =
      ((FR.map ID3.buildFrame).flatten).length := by
  induction FR with
  | nil => rfl
  | cons f fs ih =>
    obtain ⟨h4, -, -, -⟩ := hwf f (by simp)
    have h4n : (ID3.normFrame f).id.length = 4 := h4
    simp only [List.map_cons, List.flatten_cons, List.length_append]
    rw [buildFrame_length f h4, buildFrame_length (ID3.normFrame f) h4n,
      ih (fun g hg => hwf g (by simp [hg]))]
    rfl

theorem getD_slice (buf : List Nat) (off e k : Nat) (hk : k < e - off) :
    (slice buf off e).getD k 0 = buf.getD (off + k) 0 := by
  rw [slice, List.getD_eq_getElem?_getD, List.getD_eq_getElem?_getD]
  rw [List.getElem?_take_of_lt hk, List.getElem?_drop]

theorem getLast?_decomp {α : Type} :
    ∀ (l : List α) (a : α), l.getLast? = some a → ∃ l', l = l' ++ [a] := by
  intro l
  induction l with
  | nil => intro a h; cases h
  | cons x xs ih =>
    intro a h
    rcases xs with - | ⟨y, ys⟩
    · rw [List.getLast?_singleton] at h
      cases h
      exact ⟨[], rfl⟩
    · rw [List.getLast?_cons_cons] at h
      obtain ⟨l', hl⟩ := ih a h
      exact ⟨x :: l', by rw [hl]; rfl⟩

/-- Reaching an SOS marker captures the whole remaining buffer as one
final block: any parsed segment whose bytes start `FF DA` is the
buffer's tail (through end of file) and the last segment returned. -/
theorem segLoopGo_sos :
    ∀ (fuel : Nat) (buf : List Nat) (off : Nat) (segs : List (List Nat)),
      EXIF.segLoopGo fuel buf off = .ok segs →
      ∀ s ∈ segs, s.getD 0 0 = 255 → s.getD 1 0 = 218 →
        s = sliceFrom buf (buf.length - s.length) ∧ segs.getLast? = some s := by
  intro fuel
  induction fuel with
  | zero =>
    intro buf off segs h s hs _ _
    rw [EXIF.segLoopGo] at h
    cases h
    cases hs
  | succ fuel ih =>
    intro buf off segs h s hs h0 h1
    rw [EXIF.segLoopGo] at h
    by_cases hoff : off < buf.length
    · rw [if_pos hoff] at h
      by_cases hb : buf.getD off 0 ≠ 255
      · rw [if_pos hb] at h
        cases h
        cases hs
      · rw [if_neg hb] at h
        push_neg at hb
        rcases hr : EXIF.readUInt16BE buf off with e | marker
        · simp only [hr] at h
          cases h
        · simp only [hr] at h
          have hr' := hr
          rw [EXIF.readUInt16BE] at hr'
          by_cases h2 : off + 2 ≤ buf.length
          · rw [if_pos h2] at hr'
            have hmarker : marker = buf.getD off 0 * 256 + buf.getD (off + 1) 0 := by
              cases hr'; rfl
            by_cases hm : marker = 65498
            · rw [if_pos hm] at h
              cases h
              rw [List.mem_singleton] at hs
              subst hs
              refine ⟨?_, rfl⟩
              have hlen : (buf.drop off).length = buf.length - off := List.length_drop _ _
              rw [sliceFrom, hlen]
              congr 1
              omega
            · rw [if_neg hm] at h
              rcases hr2 : EXIF.readUInt16BE buf (off + 2) with e | len
              · simp only [hr2] at h
                cases h
              · simp only [hr2] at h
                by_cases hend : off + 2 + len > buf.length
                · rw [if_pos hend] at h
                  cases h
                  cases hs
                · rw [if_neg hend] at h
                  rcases hrec : EXIF.segLoopGo fuel buf (off + 2 + len) with e | rest
                  · simp only [hrec] at h
                    cases h
                  · simp only [hrec] at h
                    cases h
                    rcases List.mem_cons.mp hs with rfl | hs2
                    · exfalso
                      have hg1 : (slice buf off (off + 2 + len)).getD 1 0 =
                          buf.getD (off + 1) 0 := getD_slice buf off _ 1 (by omega)
                      rw [hg1] at h1
                      rw [hb, h1] at hmarker
                      exact hm (by omega)
                    · have hrec2 := ih buf (off + 2 + len) rest hrec s hs2 h0 h1
                      refine ⟨hrec2.1, ?_⟩
                      rcases rest with - | ⟨r0, rest'⟩
                      · cases hs2
                      · rw [List.getLast?_cons_cons]
                        exact hrec2.2
          · rw [if_neg h2] at hr'
            cases hr'
    · rw [if_neg hoff] at h
      cases h
      cases hs

/-- The SOS block of any successfully parsed JPEG is the byte-identical
tail of the input and the last parsed segment. -/
theorem parseJPEG_sos (buf : List Nat) (segs : List (List Nat)) (s : List Nat)
    (h : EXIF.parseJPEGSegments buf = .ok segs) (hs : s ∈ segs)
    (h0 : s.getD 0 0 = 255) (h1 : s.getD 1 0 = 218) :
    s = sliceFrom buf (buf.length - s.length) ∧ segs.getLast? = some s := by
  rw [EXIF.parseJPEGSegments] at h
  rcases hr : EXIF.readUInt16BE buf 0 with e | soi
  · simp only [hr] at h
    cases h
  · simp only [hr] at h
    by_cases hsoi : soi ≠ 65496
    · rw [if_pos hsoi] at h; cases h
    · rw [if_neg hsoi] at h
      push_neg at hsoi
      rcases hl : EXIF.segLoop buf 2 with e | segs2
      · simp only [hl] at h; cases h
      · simp only [hl] at h
        cases h
        have hr' := hr
        rw [EXIF.readUInt16BE] at hr'
        by_cases h2 : 0 + 2 ≤ buf.length
        · rw [if_pos h2] at hr'
          cases hr'
          rcases List.mem_cons.mp hs with rfl | hs2
          · exfalso
            have hg1 : (slice buf 0 2).getD 1 0 = buf.getD (0 + 1) 0 :=
              getD_slice buf 0 2 1 (by omega)
            rw [hg1] at h1
            have hg0 : (slice buf 0 2).getD 0 0 = buf.getD (0 + 0) 0 :=
              getD_slice buf 0 2 0 (by omega)
            rw [hg0] at h0
            have h00 : (0 + 0 : Nat) = 0 := rfl
            rw [h00] at h0
            omega
          · rw [EXIF.segLoop] at hl
            have hsos := segLoopGo_sos _ buf 2 segs2 hl s hs2 h0 h1
            refine ⟨hsos.1, ?_⟩
            rcases segs2 with - | ⟨r0, rest'⟩
            · cases hs2
            · rw [List.getLast?_cons_cons]
              exact hsos.2
        · rw [if_neg h2] at hr'
          cases hr'

/-- `_embedJPEGMetadata` places the SOS block byte-identical and last,
whatever metadata segments it inserts up front. -/
theorem embedJPEG_sos (hOpts : EXIF.Options) (buf : List Nat) (md : Record)
    (opts : ID3.EmbedOpts) (segs : List (List Nat)) (s out : List Nat)
    (hparse : EXIF.parseJPEGSegments buf = .ok segs)
    (hlast : segs.getLast? = some s)
    (h0 : s.getD 0 0 = 255) (h1 : s.getD 1 0 = 218)
    (hembed : EXIF.embedJPEGMetadata hOpts buf md opts = .ok out) :
    ∃ pre, out = pre ++ s := by
  have happ : EXIF.isAPP1Segment s = false := by
    rw [EXIF.isAPP1Segment]
    apply decide_eq_false
    rintro ⟨-, heq⟩
    rw [h0, h1] at heq
    omega
  have hmeta : EXIF.isMetadataSegment s = false := by
    rw [EXIF.isMetadataSegment, happ]
    rfl
  simp only [EXIF.embedJPEGMetadata, hparse] at hembed
  rcases hX : EXIF.createXMPData md opts with e | X
  · simp only [hX] at hembed
    cases hembed
  · simp only [hX] at hembed
    rcases hA : EXIF.createAPP1Segment X true with e | xseg
    · simp only [hA] at hembed
      cases hembed
    · simp only [hA] at hembed
      rcases hE : (if hOpts.preferredFormat = EXIF.PreferredFormat.exif ∨
          hOpts.preferredFormat = EXIF.PreferredFormat.both then
          (EXIF.createAPP1Segment (EXIF.createEXIFData md) false).map some
        else .ok none) with e | eseg
      · simp only [hE] at hembed
        cases hembed
      · simp only [hE] at hembed
        rcases segs with - | ⟨s0, rest⟩
        · cases hembed
        · rcases rest with - | ⟨r1, rest1⟩
          · -- a single parsed segment cannot be the SOS block: it is the
            -- SOI slice, whose second byte decodes 65496, not 65498
            exfalso
            rw [List.getLast?_singleton] at hlast
            cases hlast
            rw [EXIF.parseJPEGSegments] at hparse
            rcases hr : EXIF.readUInt16BE buf 0 with e2 | soi
            · simp only [hr] at hparse
              cases hparse
            · simp only [hr] at hparse
              by_cases hsoi : soi ≠ 65496
              · rw [if_pos hsoi] at hparse; cases hparse
              · rw [if_neg hsoi] at hparse
                push_neg at hsoi
                rcases hl : EXIF.segLoop buf 2 with e2 | segs2
                · simp only [hl] at hparse; cases hparse
                · simp only [hl] at hparse
                  cases hparse
                  have hr' := hr
                  rw [EXIF.readUInt16BE] at hr'
                  by_cases h2 : 0 + 2 ≤ buf.length
                  · rw [if_pos h2] at hr'
                    cases hr'
                    have hg1 : (slice buf 0 2).getD 1 0 = buf.getD (0 + 1) 0 :=
                      getD_slice buf 0 2 1 (by omega)
                    rw [hg1] at h1
                    have hg0 : (slice buf 0 2).getD 0 0 = buf.getD (0 + 0) 0 :=
                      getD_slice buf 0 2 0 (by omega)
                    rw [hg0] at h0
                    have h00 : (0 + 0 : Nat) = 0 := rfl
                    rw [h00] at h0
                    omega
                  · rw [if_neg h2] at hr'
                    cases hr'
          · -- the SOS block is the last of the tail segments
            have hlast2 : (r1 :: rest1).getLast? = some s := by
              rw [← hlast, List.getLast?_cons_cons]
            obtain ⟨rest', hdec⟩ := getLast?_decomp (r1 :: rest1) s hlast2
            rw [hdec] at hembed
            cases hembed
            refine ⟨s0 ++ eseg.getD [] ++ xseg ++
              ((rest'.filter
                (fun sg => hOpts.preserveExisting || !EXIF.isMetadataSegment sg)).flatten),
              ?_⟩
            rw [List.filter_append]
            have hfs : List.filter
                (fun sg => hOpts.preserveExisting || !EXIF.isMetadataSegment sg) [s] =
                [s] := by
              simp [hmeta]
            rw [hfs, List.flatten_append]
            simp [List.append_assoc]

/-- ID3 removal is idempotent on tags built by `_buildID3Tag` over a
non-ID3 payload. -/
theorem ID3_remove_idem (FR : List ID3.Frame) (P : List Nat)
    (hwf : ∀ f ∈ FR, ID3.frameWF f)
    (hsize : ((FR.map ID3.buildFrame).flatten).length + 1024 < 268435456)
    (hP : (ID3.parseID3Header P).hasID3 = false) :
    ∃ D, ID3.removeMetadata (ID3.buildID3Tag FR ++ P) = .ok D ∧
      ID3.removeMetadata D = .ok D := by
  have hheader := parseID3Header_build FR P hsize
  have hparse := parseID3Frames_build FR P hwf
  have hdrop := buildID3Tag_drop FR P
  rcases hke : (FR.map ID3.normFrame).filter (fun f => !ID3.isAIMetadataFrame f)
    with - | ⟨k0, krest⟩
  · refine ⟨P, ?_, ?_⟩
    · simp only [ID3.removeMetadata, hheader, Bool.not_true, Bool.false_eq_true, if_false,
        hparse, hke, List.isEmpty_nil, if_true, hdrop]
    · simp only [ID3.removeMetadata, hP, Bool.not_false, if_true]
  · have hkeptwf : ∀ f ∈ (FR.map ID3.normFrame).filter (fun f => !ID3.isAIMetadataFrame f),
        ID3.frameWF f := by
      intro f hf
      have hf2 := List.mem_of_mem_filter hf
      rcases List.mem_map.mp hf2 with ⟨g, hg, rfl⟩
      exact frameWF_normFrame g (hwf g hg)
    have hsize2 : ((((FR.map ID3.normFrame).filter
        (fun f => !ID3.isAIMetadataFrame f)).map ID3.buildFrame).flatten).length + 1024 <
        268435456 := by
      have h1 := flatten_filter_le (fun f => !ID3.isAIMetadataFrame f) (FR.map ID3.normFrame)
      have h2 := flatten_build_norm FR hwf
      omega
    have hheaderD := parseID3Header_build _ P hsize2
    have hparseD := parseID3Frames_build _ P hkeptwf
    have hdropD := buildID3Tag_drop ((FR.map ID3.normFrame).filter
      (fun f => !ID3.isAIMetadataFrame f)) P
    have hmem : ∀ f ∈ (FR.map ID3.normFrame).filter (fun f => !ID3.isAIMetadataFrame f),
        ID3.normFrame f = f := by
      intro f hf
      rcases List.mem_map.mp (List.mem_of_mem_filter hf) with ⟨g, -, rfl⟩
      exact normFrame_idem g
    have hnorm : ((FR.map ID3.normFrame).filter
        (fun f => !ID3.isAIMetadataFrame f)).map ID3.normFrame =
        (FR.map ID3.normFrame).filter (fun f => !ID3.isAIMetadataFrame f) := by
      rw [List.map_congr_left hmem]
      simp
    rw [hnorm] at hparseD
    have hfilt2 : ((FR.map ID3.normFrame).filter (fun f => !ID3.isAIMetadataFrame f)).filter
        (fun f => !ID3.isAIMetadataFrame f) =
        (FR.map ID3.normFrame).filter (fun f => !ID3.isAIMetadataFrame f) :=
      List.filter_eq_self.mpr (fun a ha => (List.mem_filter.mp ha).2)
    have hne : ((FR.map ID3.normFrame).filter
        (fun f => !ID3.isAIMetadataFrame f)).isEmpty = false := by
      rw [hke]; rfl
    refine ⟨ID3.buildID3Tag ((FR.map ID3.normFrame).filter
      (fun f => !ID3.isAIMetadataFrame f)) ++ P, ?_, ?_⟩
    · simp only [ID3.removeMetadata, hheader, Bool.not_true, Bool.false_eq_true, if_false,
        hparse, hne, hdrop]
    · simp only [ID3.removeMetadata, hheaderD, Bool.not_true, Bool.false_eq_true, if_false,
        hparseD, hfilt2, hne, hdropD]

theorem segsWF_filter (p : List Nat → Bool) :
    ∀ segs : List (List Nat), EXIF.segsWF segs → EXIF.segsWF (segs.filter p) := by
  intro segs
  induction segs with
  | nil => intro h; exact h
  | cons s rest ih =>
    intro h
    rcases h with ⟨hs, hrest⟩
    rw [List.filter_cons]
    split
    · refine ⟨?_, ih hrest⟩
      rcases hs with hs | ⟨hnil, hsos⟩
      · exact Or.inl hs
      · subst hnil
        exact Or.inr ⟨rfl, hsos⟩
    · exact ih hrest

theorem detect_replay (segs : List (List Nat)) (hwf : EXIF.segsWF segs)
    (hne : segs ≠ []) :
    EXIF.detectImageFormat ([255, 216] ++ segs.flatten) = .jpeg := by
  rcases segs with - | ⟨s0, rest⟩
  · exact absurd rfl hne
  · rcases hwf with ⟨hs0, -⟩
    have h2 : 2 ≤ s0.length := by
      rcases hs0 with h | h
      · exact le_trans (by omega) h.1
      · exact h.2.1
    have h255 : s0.getD 0 0 = 255 := by
      rcases hs0 with h | h
      · exact h.2.1
      · exact h.2.2.1
    rcases s0 with - | ⟨b0, s0'⟩
    · simp at h2
    · have hb0 : b0 = 255 := by simpa using h255
      subst hb0
      have h1 : 1 ≤ s0'.length := by simpa using h2
      rw [List.flatten_cons]
      rw [EXIF.detectImageFormat]
      rw [if_neg (by simp; omega)]
      rw [if_pos (by refine ⟨?_, ?_, ?_⟩ <;> simp)]

/-- `removeMetadata` on a well-formed JPEG drops exactly the
AI-metadata segments. -/
theorem removeJPEG_replay (segs : List (List Nat)) (hwf : EXIF.segsWF segs) :
    EXIF.removeMetadata ([255, 216] ++ segs.flatten) =
      .ok ([255, 216] ++ (segs.filter
        (fun s => !(EXIF.isMetadataSegment s && EXIF.containsAIMetadata s))).flatten) := by
  rcases segs with - | ⟨s0, rest⟩
  · simp [EXIF.removeMetadata, EXIF.detectImageFormat]
  · have hdet := detect_replay (s0 :: rest) hwf (by simp)
    have hparse := parseJPEGSegments_replay (s0 :: rest) hwf
    simp only [EXIF.removeMetadata, hdet, EXIF.removeJPEGMetadata, hparse]
    rw [List.filter_cons, if_pos (by decide)]
    rw [List.flatten_cons]

theorem JPEG_remove_idem (segs : List (List Nat)) (hwf : EXIF.segsWF segs) :
    ∃ D, EXIF.removeMetadata ([255, 216] ++ segs.flatten) = .ok D ∧
      EXIF.removeMetadata D = .ok D := by
  refine ⟨[255, 216] ++ (segs.filter
    (fun s => !(EXIF.isMetadataSegment s && EXIF.containsAIMetadata s))).flatten,
    removeJPEG_replay segs hwf, ?_⟩
  have hwfF := segsWF_filter
    (fun s => !(EXIF.isMetadataSegment s && EXIF.containsAIMetadata s)) segs hwf
  have h2 := removeJPEG_replay (segs.filter
    (fun s => !(EXIF.isMetadataSegment s && EXIF.containsAIMetadata s))) hwfF
  have hff : (segs.filter
      (fun s => !(EXIF.isMetadataSegment s && EXIF.containsAIMetadata s))).filter
      (fun s => !(EXIF.isMetadataSegment s && EXIF.containsAIMetadata s)) =
      segs.filter (fun s => !(EXIF.isMetadataSegment s && EXIF.containsAIMetadata s)) :=
    List.filter_eq_self.mpr (fun a ha => (List.mem_filter.mp ha).2)
  rw [hff] at h2
  exact h2


end S2P

/-! ### Claims -/

/-- **C8** (confirmed).  Synchsafe round-trip: `_writeSynchsafeInt`
masks each of the four bytes to 7 bits in big-endian order and
`_readSynchsafeInt` is its exact inverse on every value representable
in 28 bits; in particular `0x0FFFFFFF` encodes to `7F 7F 7F 7F` and
decodes back to `0x0FFFFFFF`. -/
theorem claim_C8_theorem (v : Nat) (hv : v < 2 ^ 28) :
    S2P.ID3.readSynchsafeInt (S2P.ID3.writeSynchsafeInt v) = v ∧
    S2P.ID3.writeSynchsafeInt 268435455 = [127, 127, 127, 127] ∧
    S2P.ID3.readSynchsafeInt [127, 127, 127, 127] = 268435455 :=
  ⟨S2P.synchsafe_roundtrip v hv, rfl, rfl⟩

theorem claim_C8_witness :
    268435454 < 2 ^ 28 ∧
      S2P.ID3.readSynchsafeInt (S2P.ID3.writeSynchsafeInt 268435454) = 268435454 :=
  ⟨by norm_num, (claim_C8_theorem 268435454 (by norm_num)).1⟩

/-- **C7** (corrected: counterexample).  The claim says a size field
with any MSB-set byte is rejected with a format error; in fact
`_parseID3Header` performs no such check: the header below, whose first
size byte is `0x80`, is accepted (`hasID3`) and decoded by the
shift-or formula, and the function's return type has no error channel
at all. -/
theorem claim_C7_counterexample :
    S2P.ID3.parseID3Header [73, 68, 51, 4, 0, 0, 128, 0, 0, 0] =
      { hasID3 := true, tagSize := 268435466, majorVersion := 4, minorVersion := 0
        flags := 0, existingFrames := [] } := rfl

/-- **C7** (corrected: amended claim).  When parsing the 10-byte ID3v2
header, the 4-byte size field is decoded by the synchsafe shift-or
formula with **no** MSB validation: every buffer of length ≥ 10 whose
first three bytes are `ID3` is accepted (`hasID3 = true`), whatever its
size bytes, and no error is ever surfaced. -/
theorem claim_C7_theorem (buf : List Nat) (hlen : 10 ≤ buf.length)
    (hmagic : buf.take 3 = [73, 68, 51]) :
    (S2P.ID3.parseID3Header buf).hasID3 = true ∧
    (S2P.ID3.parseID3Header buf).tagSize =
      S2P.ID3.readSynchsafeInt (S2P.slice buf 6 10) + 10 := by
  rw [S2P.parseID3Header_magic buf hlen hmagic]
  exact ⟨rfl, rfl⟩

/-- **C4** (confirmed).  Format rejection: for any byte sequence the
codec classifies as PNG or TIFF, both `embedMetadata` (given a record
that passes validation) and `extractMetadata` return the explicit
"not yet implemented" unsupported-container errors — neither passes the
input through nor returns null. -/
theorem claim_C4_theorem (hOpts : S2P.EXIF.Options) (buf : List Nat) (R : S2P.Record)
    (opts : S2P.ID3.EmbedOpts) (hval : S2P.EXIF.validateMetadata R = .ok ()) :
    (S2P.EXIF.detectImageFormat buf = .png →
      S2P.EXIF.embedMetadata hOpts buf R opts =
        .error "Failed to embed image metadata: PNG metadata embedding not yet implemented" ∧
      S2P.EXIF.extractMetadata buf =
        .error "Failed to extract image metadata: PNG metadata extraction not yet implemented") ∧
    (S2P.EXIF.detectImageFormat buf = .tiff →
      S2P.EXIF.embedMetadata hOpts buf R opts =
        .error "Failed to embed image metadata: TIFF metadata embedding not yet implemented" ∧
      S2P.EXIF.extractMetadata buf =
        .error "Failed to extract image metadata: TIFF metadata extraction not yet implemented") := by
  constructor
  · intro h
    constructor
    · simp [S2P.EXIF.embedMetadata, hval, h]
    · simp [S2P.EXIF.extractMetadata, h]
  · intro h
    constructor
    · simp [S2P.EXIF.embedMetadata, hval, h]
    · simp [S2P.EXIF.extractMetadata, h]

theorem claim_C4_witness :
    S2P.EXIF.validateMetadata
        [(S2P.asc "contentType", .s (S2P.asc "text")), (S2P.asc "origin", .s (S2P.asc "ai")),
         (S2P.asc "created", .s (S2P.asc "2024"))] = .ok () ∧
    S2P.EXIF.detectImageFormat [137, 80, 78, 71] = .png ∧
    S2P.EXIF.embedMetadata {} [137, 80, 78, 71]
        [(S2P.asc "contentType", .s (S2P.asc "text")), (S2P.asc "origin", .s (S2P.asc "ai")),
         (S2P.asc "created", .s (S2P.asc "2024"))] {} =
      .error "Failed to embed image metadata: PNG metadata embedding not yet implemented" :=
  ⟨rfl, rfl,
    ((claim_C4_theorem {} [137, 80, 78, 71]
      [(S2P.asc "contentType", .s (S2P.asc "text")), (S2P.asc "origin", .s (S2P.asc "ai")),
       (S2P.asc "created", .s (S2P.asc "2024"))] {} rfl).1 rfl).1⟩

/-- **C5** (confirmed).  ID3 removal contract: with no tag the input is
returned unchanged; with a tag, exactly the provenance-owned frames
(among the frames the tag parse yields) are dropped — if none remain
the bytes after the tag are returned with no ID3 header prepended, and
otherwise a tag is rebuilt from the kept frames by `buildID3Tag`, the
same routine embedding uses. -/
theorem claim_C5_theorem (buf : List Nat) :
    ((S2P.ID3.parseID3Header buf).hasID3 = false →
      S2P.ID3.removeMetadata buf = .ok buf) ∧
    (∀ frames, (S2P.ID3.parseID3Header buf).hasID3 = true →
      S2P.ID3.parseID3Frames buf (S2P.ID3.parseID3Header buf) = .ok frames →
      (frames.filter (fun f => !S2P.ID3.isAIMetadataFrame f) = [] →
        S2P.ID3.removeMetadata buf =
          .ok (buf.drop (S2P.ID3.parseID3Header buf).tagSize)) ∧
      (frames.filter (fun f => !S2P.ID3.isAIMetadataFrame f) ≠ [] →
        S2P.ID3.removeMetadata buf =
          .ok (S2P.ID3.buildID3Tag (frames.filter (fun f => !S2P.ID3.isAIMetadataFrame f)) ++
            buf.drop (S2P.ID3.parseID3Header buf).tagSize))) := by
  refine ⟨fun h => ?_, fun frames h hp => ⟨fun hk => ?_, fun hk => ?_⟩⟩
  · simp [S2P.ID3.removeMetadata, h]
  · simp [S2P.ID3.removeMetadata, h, hp, hk]
  · simp [S2P.ID3.removeMetadata, h, hp, List.isEmpty_iff, hk]

set_option maxRecDepth 100000 in
theorem claim_C5_witness :
    (S2P.ID3.parseID3Header
        (S2P.ID3.buildID3Tag
          [S2P.ID3.createTextFrame (S2P.asc "TXXX") (S2P.asc "CustomTag") (S2P.asc "hello"),
           S2P.ID3.createTextFrame (S2P.asc "TXXX") (S2P.asc "AI_METADATA") (S2P.asc "zz")] ++
          [170, 187])).hasID3 = true ∧
    S2P.ID3.removeMetadata
        (S2P.ID3.buildID3Tag
          [S2P.ID3.createTextFrame (S2P.asc "TXXX") (S2P.asc "CustomTag") (S2P.asc "hello"),
           S2P.ID3.createTextFrame (S2P.asc "TXXX") (S2P.asc "AI_METADATA") (S2P.asc "zz")] ++
          [170, 187]) =
      .ok (S2P.ID3.buildID3Tag
          [⟨S2P.asc "TXXX", 16, [0, 0], 3 :: (S2P.asc "CustomTag" ++ 0 :: S2P.asc "hello")⟩] ++
        [170, 187]) := by
  refine ⟨rfl, ?_⟩
  have h2 := (claim_C5_theorem
    (S2P.ID3.buildID3Tag
      [S2P.ID3.createTextFrame (S2P.asc "TXXX") (S2P.asc "CustomTag") (S2P.asc "hello"),
       S2P.ID3.createTextFrame (S2P.asc "TXXX") (S2P.asc "AI_METADATA") (S2P.asc "zz")] ++
      [170, 187])).2
    [⟨S2P.asc "TXXX", 16, [0, 0], 3 :: (S2P.asc "CustomTag" ++ 0 :: S2P.asc "hello")⟩,
     ⟨S2P.asc "TXXX", 15, [0, 0], 3 :: (S2P.asc "AI_METADATA" ++ 0 :: S2P.asc "zz")⟩]
    (by decide) (by rfl)
  have h3 := h2.2 (by decide)
  simpa using h3

set_option maxRecDepth 100000 in
/-- **C10** (confirmed).  `ID3AudioHandler.hasMetadata` is true exactly
when the buffer is at least 10 bytes and starts with ASCII `ID3` — so
it is true for a tag holding only a third-party frame (from which
`extractMetadata` recovers no provenance record), it never throws, and
it contrasts with `EXIFImageHandler.hasMetadata`, which is true exactly
when a provenance record is extractable and is false on a JPEG carrying
only a camera EXIF APP1 segment. -/
theorem claim_C10_theorem :
    (∀ buf : List Nat,
      S2P.ID3.hasMetadata buf = true ↔ 10 ≤ buf.length ∧ buf.take 3 = [73, 68, 51]) ∧
    (S2P.ID3.hasMetadata
        (S2P.ID3.buildID3Tag
          [S2P.ID3.createTextFrame (S2P.asc "TXXX") (S2P.asc "CustomTag") (S2P.asc "hello")] ++
          [170]) = true ∧
      S2P.ID3.extractMetadata
        (S2P.ID3.buildID3Tag
          [S2P.ID3.createTextFrame (S2P.asc "TXXX") (S2P.asc "CustomTag") (S2P.asc "hello")] ++
          [170]) = .ok none) ∧
    (∀ buf : List Nat,
      S2P.EXIF.hasMetadata buf = true ↔ ∃ m, S2P.EXIF.extractMetadata buf = .ok (some m)) ∧
    (S2P.EXIF.detectImageFormat
        ([255, 216] ++ ([255, 225, 0, 14] ++ S2P.asc "Exif" ++ [0, 0] ++ S2P.asc "camera") ++
          [255, 218, 9]) = .jpeg ∧
      S2P.EXIF.hasMetadata
        ([255, 216] ++ ([255, 225, 0, 14] ++ S2P.asc "Exif" ++ [0, 0] ++ S2P.asc "camera") ++
          [255, 218, 9]) = false) :=
  ⟨S2P.ID3_hasMetadata_iff, ⟨rfl, rfl⟩, S2P.EXIF_hasMetadata_iff, ⟨rfl, rfl⟩⟩

theorem claim_C7_witness :
    10 ≤ ([73, 68, 51, 3, 0, 0, 255, 255, 255, 255] : List Nat).length ∧
    ([73, 68, 51, 3, 0, 0, 255, 255, 255, 255] : List Nat).take 3 = [73, 68, 51] ∧
    (S2P.ID3.parseID3Header [73, 68, 51, 3, 0, 0, 255, 255, 255, 255]).hasID3 = true :=
  ⟨by norm_num, by decide,
    (claim_C7_theorem [73, 68, 51, 3, 0, 0, 255, 255, 255, 255] (by norm_num) (by decide)).1⟩

set_option maxRecDepth 600000 in
/-- **C1** (code bug).  The claim says the checksum binds the record to
the carrier-stripped content bytes, so that mutating one byte of the
stripped payload flips verification to false.  In the code,
`_verifyChecksum(metadata, audioBuffer)` never reads `audioBuffer`: it
hashes the JSON of the record itself (minus `checksum` / `_verified` /
`_signatureValid`) and compares that to the stored `checksum`.
Concretely: embedding `sampleRecord` into the one-byte payload `[170]`
and stripping the tag returns `[170]`, the freshly embedded record
verifies against it — and verifies equally against the mutated payload
`[171]`, where the spec requires `false`; the last conjunct shows the
buffer argument is ignored outright. -/
theorem claim_C1_theorem :
    (S2P.ID3.embedMetadata {} [170] S2P.sampleRecord {}).bind S2P.ID3.removeMetadata =
      .ok [170] ∧
    S2P.ID3.verifyChecksum
      (S2P.setField S2P.sampleRecord (S2P.asc "checksum")
        (.s (S2P.sha256Hex (S2P.jsonStringify S2P.sampleRecord)))) [170] = true ∧
    S2P.ID3.verifyChecksum
      (S2P.setField S2P.sampleRecord (S2P.asc "checksum")
        (.s (S2P.sha256Hex (S2P.jsonStringify S2P.sampleRecord)))) [171] = true ∧
    (∀ b1 b2 : List Nat, ∀ m : S2P.Record,
      S2P.ID3.verifyChecksum m b1 = S2P.ID3.verifyChecksum m b2) :=
  ⟨by rfl, by rfl, by rfl, fun _ _ _ => rfl⟩

set_option maxRecDepth 600000 in
/-- **C2** (corrected: counterexample).  Round-tripping `sampleRecord`
through the ID3 codec does not return it field-for-field even after the
derived flags are excluded: `_extractAIFrames` grafts the
`AI_CHECKSUM` frame's payload onto the record as a `checksum` field the
original never had. -/
theorem claim_C2_counterexample :
    S2P.getField S2P.sampleRecord (S2P.asc "checksum") = none ∧
    (S2P.ID3.embedMetadata {} [] S2P.sampleRecord {}).bind S2P.ID3.extractMetadata =
      .ok (some (S2P.sampleRecord ++
        [(S2P.asc "checksum", .s (S2P.sha256Hex (S2P.jsonStringify S2P.sampleRecord))),
         (S2P.asc "_verified", .b true)])) ∧
    S2P.delField (S2P.delField
        (S2P.sampleRecord ++
          [(S2P.asc "checksum", .s (S2P.sha256Hex (S2P.jsonStringify S2P.sampleRecord))),
           (S2P.asc "_verified", .b true)])
        (S2P.asc "_verified")) (S2P.asc "_signatureValid") ≠ S2P.sampleRecord :=
  ⟨rfl, by rfl, by decide⟩

set_option maxRecDepth 600000 in
/-- **C3** (code bug).  The claim says embedding with
`preserveExisting = true` keeps unrelated existing frames byte-identical
in the output.  In the code `_parseID3Header` always returns
`existingFrames: []` (it never parses frames), so the preserve branch of
`_createID3Tag` has nothing to prepend: embedding into a tag that holds
a third-party `TXXX CustomTag` frame produces output from which the
`CustomTag` bytes have vanished. -/
theorem claim_C3_theorem :
    (∀ buf : List Nat, (S2P.ID3.parseID3Header buf).existingFrames = []) ∧
    S2P.containsBytes (S2P.asc "CustomTag")
      (S2P.ID3.buildID3Tag
        [S2P.ID3.createTextFrame (S2P.asc "TXXX") (S2P.asc "CustomTag") (S2P.asc "hello")] ++
        [170, 187]) = true ∧
    (S2P.ID3.embedMetadata { preserveExisting := true }
        (S2P.ID3.buildID3Tag
          [S2P.ID3.createTextFrame (S2P.asc "TXXX") (S2P.asc "CustomTag") (S2P.asc "hello")] ++
          [170, 187]) S2P.sampleRecord {}).map
      (fun out => S2P.containsBytes (S2P.asc "CustomTag") out) = .ok false :=
  ⟨S2P.existingFrames_nil, by decide, by rfl⟩

/-- **C2** (corrected: amended claim).  Round-trip up to checksum
grafting: for a valid record, (a) the ID3 codec's
`extract(embed(C, R))` returns `R` with the `checksum` field overwritten
by the `AI_CHECKSUM` frame payload — equality holds only after deleting
`checksum` as well as the derived `_verified` / `_signatureValid`
flags; (b) the JPEG codec (default XMP/preserve options, well-formed
segment list, XML-safe string fields, payload fitting an APP1 segment)
returns `R` exactly up to the derived flags, as originally claimed. -/
theorem claim_C2_theorem (R : S2P.Record) :
    (∀ (hOpts : S2P.ID3.Options) (C : List Nat) (opts : S2P.ID3.EmbedOpts),
      S2P.ID3.validateMetadata R = .ok () → S2P.plainRecord R = true →
      opts.privateKey = false → (S2P.jsonStringify R).length + 1200 < 268435456 →
      ∃ out M, S2P.ID3.embedMetadata hOpts C R opts = .ok out ∧
        S2P.ID3.extractMetadata out = .ok (some M) ∧
        S2P.delField (S2P.delField (S2P.delField M (S2P.asc "checksum"))
            (S2P.asc "_verified")) (S2P.asc "_signatureValid") =
          S2P.delField (S2P.delField (S2P.delField R (S2P.asc "checksum"))
            (S2P.asc "_verified")) (S2P.asc "_signatureValid")) ∧
    (∀ (hOpts : S2P.EXIF.Options) (segs : List (List Nat)) (opts : S2P.ID3.EmbedOpts),
      hOpts.preferredFormat = .xmp → hOpts.preserveExisting = true →
      S2P.EXIF.segsWF segs → segs ≠ [] →
      S2P.ID3.validateMetadata R = .ok () → S2P.xmlSafeRecord R = true →
      31 + ((S2P.EXIF.createXMPData R opts).toOption.getD []).length ≤ 65535 →
      ∃ out M,
        S2P.EXIF.embedMetadata hOpts ([255, 216] ++ segs.flatten) R opts = .ok out ∧
        S2P.EXIF.extractMetadata out = .ok (some M) ∧
        S2P.delField (S2P.delField M (S2P.asc "_verified")) (S2P.asc "_signatureValid") =
          S2P.delField (S2P.delField R (S2P.asc "_verified"))
            (S2P.asc "_signatureValid")) :=
  ⟨fun hOpts C opts hval hplain hkey hjson =>
      S2P.ID3_roundtrip hOpts C R opts hval hplain hkey hjson,
   fun hOpts segs opts hfmt hpres hwf hne hval hsafe hfit =>
      S2P.JPEG_roundtrip hOpts segs R opts hfmt hpres hwf hne hval hsafe hfit⟩

set_option maxRecDepth 600000 in
theorem claim_C2_witness :
    S2P.ID3.validateMetadata S2P.sampleRecord = .ok () ∧
    S2P.plainRecord S2P.sampleRecord = true ∧
    S2P.xmlSafeRecord S2P.sampleRecord = true ∧
    S2P.EXIF.segsWF [[255, 218, 7]] ∧
    (∃ out M, S2P.ID3.embedMetadata {} [] S2P.sampleRecord {} = .ok out ∧
      S2P.ID3.extractMetadata out = .ok (some M) ∧
      S2P.delField (S2P.delField (S2P.delField M (S2P.asc "checksum"))
          (S2P.asc "_verified")) (S2P.asc "_signatureValid") =
        S2P.delField (S2P.delField (S2P.delField S2P.sampleRecord (S2P.asc "checksum"))
          (S2P.asc "_verified")) (S2P.asc "_signatureValid")) ∧
    (∃ out M, S2P.EXIF.embedMetadata {} ([255, 216] ++ [[255, 218, 7]].flatten)
        S2P.sampleRecord {} = .ok out ∧
      S2P.EXIF.extractMetadata out = .ok (some M) ∧
      S2P.delField (S2P.delField M (S2P.asc "_verified")) (S2P.asc "_signatureValid") =
        S2P.delField (S2P.delField S2P.sampleRecord (S2P.asc "_verified"))
          (S2P.asc "_signatureValid")) :=
  ⟨rfl, by decide, by decide, by decide,
   (claim_C2_theorem S2P.sampleRecord).1 {} [] {} rfl (by decide) rfl (by decide),
   (claim_C2_theorem S2P.sampleRecord).2 {} [[255, 218, 7]] {} rfl rfl (by decide)
     (by decide) rfl (by decide) (by decide)⟩

set_option maxRecDepth 600000 in
/-- **C6** (corrected: counterexample).  Removal is not idempotent for
either codec: two stacked ID3 tags are stripped one per call (the first
call returns a buffer that still begins with an ID3 tag), and a JPEG
whose segment declares a length below 2 re-parses differently after
removal, so the second call throws a `RangeError` where the first
succeeded. -/
theorem claim_C6_counterexample :
    (S2P.ID3.removeMetadata (S2P.aiTag ++ S2P.aiTag ++ [170]) =
        .ok (S2P.aiTag ++ [170]) ∧
      S2P.ID3.removeMetadata (S2P.aiTag ++ [170]) = .ok [170] ∧
      S2P.aiTag ++ [170] ≠ ([170] : List Nat)) ∧
    (S2P.EXIF.removeMetadata [255, 216, 255, 224, 0, 0] = .ok [255, 216, 255, 224] ∧
      S2P.EXIF.removeMetadata [255, 216, 255, 224] =
        .error "Failed to remove image metadata: RangeError") :=
  ⟨⟨by rfl, by rfl, by decide⟩, ⟨by rfl, by rfl⟩⟩

/-- **C6** (corrected: amended claim).  Removal **is** idempotent on
well-formed carriers: for an ID3 tag built by `_buildID3Tag` from
well-formed frames over a payload that does not itself start with an
ID3 tag, and for a JPEG whose segments after SOI are well formed
(declared lengths matching their byte counts, an optional final SOS
block), `remove(remove(C)) = remove(C)`. -/
theorem claim_C6_theorem :
    (∀ (FR : List S2P.ID3.Frame) (P : List Nat),
      (∀ f ∈ FR, S2P.ID3.frameWF f) →
      ((FR.map S2P.ID3.buildFrame).flatten).length + 1024 < 268435456 →
      (S2P.ID3.parseID3Header P).hasID3 = false →
      ∃ D, S2P.ID3.removeMetadata (S2P.ID3.buildID3Tag FR ++ P) = .ok D ∧
        S2P.ID3.removeMetadata D = .ok D) ∧
    (∀ segs : List (List Nat), S2P.EXIF.segsWF segs →
      ∃ D, S2P.EXIF.removeMetadata ([255, 216] ++ segs.flatten) = .ok D ∧
        S2P.EXIF.removeMetadata D = .ok D) :=
  ⟨S2P.ID3_remove_idem, S2P.JPEG_remove_idem⟩

set_option maxRecDepth 600000 in
theorem claim_C6_witness :
    (∀ f ∈ [S2P.ID3.createTextFrame (S2P.asc "TXXX") (S2P.asc "CustomTag")
        (S2P.asc "hello")], S2P.ID3.frameWF f) ∧
    (S2P.ID3.parseID3Header [170]).hasID3 = false ∧
    S2P.EXIF.segsWF [[255, 218, 7]] ∧
    (∃ D, S2P.ID3.removeMetadata
        (S2P.ID3.buildID3Tag
          [S2P.ID3.createTextFrame (S2P.asc "TXXX") (S2P.asc "CustomTag")
            (S2P.asc "hello")] ++ [170]) = .ok D ∧
      S2P.ID3.removeMetadata D = .ok D) ∧
    (∃ D, S2P.EXIF.removeMetadata ([255, 216] ++ [[255, 218, 7]].flatten) = .ok D ∧
      S2P.EXIF.removeMetadata D = .ok D) :=
  ⟨by decide, rfl, by decide,
   claim_C6_theorem.1
     [S2P.ID3.createTextFrame (S2P.asc "TXXX") (S2P.asc "CustomTag") (S2P.asc "hello")]
     [170] (by decide) (by decide) rfl,
   claim_C6_theorem.2 [[255, 218, 7]] (by decide)⟩

/-- **C9** (confirmed).  JPEG SOS boundary: in any successfully parsed
JPEG, a segment beginning with the Start-Of-Scan marker `FF DA` is the
byte-identical tail of the input through end of file and the last
segment of the parse; and `_embedJPEGMetadata` places that block
byte-identical and last in its output, whatever APP1 segments it
inserts before it. -/
theorem claim_C9_theorem :
    (∀ (buf : List Nat) (segs : List (List Nat)) (s : List Nat),
      S2P.EXIF.parseJPEGSegments buf = .ok segs → s ∈ segs →
      s.getD 0 0 = 255 → s.getD 1 0 = 218 →
      s = S2P.sliceFrom buf (buf.length - s.length) ∧ segs.getLast? = some s) ∧
    (∀ (hOpts : S2P.EXIF.Options) (buf : List Nat) (md : S2P.Record)
        (opts : S2P.ID3.EmbedOpts) (segs : List (List Nat)) (s out : List Nat),
      S2P.EXIF.parseJPEGSegments buf = .ok segs → segs.getLast? = some s →
      s.getD 0 0 = 255 → s.getD 1 0 = 218 →
      S2P.EXIF.embedJPEGMetadata hOpts buf md opts = .ok out →
      ∃ pre, out = pre ++ s) :=
  ⟨S2P.parseJPEG_sos, S2P.embedJPEG_sos⟩

set_option maxRecDepth 600000 in
theorem claim_C9_witness :
    S2P.EXIF.parseJPEGSegments
        ([255, 216] ++ ([255, 224, 0, 16] ++ [74, 70, 73, 70, 0, 1, 1, 0, 0, 1, 0, 1, 0, 0]) ++
          ([255, 218] ++ [1, 2, 3])) =
      .ok [[255, 216], [255, 224, 0, 16, 74, 70, 73, 70, 0, 1, 1, 0, 0, 1, 0, 1, 0, 0],
        [255, 218, 1, 2, 3]] ∧
    (([255, 218, 1, 2, 3] : List Nat) =
        S2P.sliceFrom
          ([255, 216] ++ ([255, 224, 0, 16] ++ [74, 70, 73, 70, 0, 1, 1, 0, 0, 1, 0, 1, 0, 0]) ++
            ([255, 218] ++ [1, 2, 3]))
          (([255, 216] ++ ([255, 224, 0, 16] ++ [74, 70, 73, 70, 0, 1, 1, 0, 0, 1, 0, 1, 0, 0]) ++
            ([255, 218] ++ [1, 2, 3])).length - ([255, 218, 1, 2, 3] : List Nat).length) ∧
      ([[255, 216], [255, 224, 0, 16, 74, 70, 73, 70, 0, 1, 1, 0, 0, 1, 0, 1, 0, 0],
        [255, 218, 1, 2, 3]] : List (List Nat)).getLast? = some [255, 218, 1, 2, 3]) ∧
    (∃ pre, (S2P.EXIF.embedJPEGMetadata {}
        ([255, 216] ++ ([255, 224, 0, 16] ++ [74, 70, 73, 70, 0, 1, 1, 0, 0, 1, 0, 1, 0, 0]) ++
          ([255, 218] ++ [1, 2, 3]))
        S2P.sampleRecord {}).toOption.getD [] = pre ++ [255, 218, 1, 2, 3]) :=
  ⟨by rfl,
   claim_C9_theorem.1
     ([255, 216] ++ ([255, 224, 0, 16] ++ [74, 70, 73, 70, 0, 1, 1, 0, 0, 1, 0, 1, 0, 0]) ++
       ([255, 218] ++ [1, 2, 3]))
     [[255, 216], [255, 224, 0, 16, 74, 70, 73, 70, 0, 1, 1, 0, 0, 1, 0, 1, 0, 0],
       [255, 218, 1, 2, 3]]
     [255, 218, 1, 2, 3] (by rfl) (by decide) rfl rfl,
   claim_C9_theorem.2 {}
     ([255, 216] ++ ([255, 224, 0, 16] ++ [74, 70, 73, 70, 0, 1, 1, 0, 0, 1, 0, 1, 0, 0]) ++
       ([255, 218] ++ [1, 2, 3]))
     S2P.sampleRecord {}
     [[255, 216], [255, 224, 0, 16, 74, 70, 73, 70, 0, 1, 1, 0, 0, 1, 0, 1, 0, 0],
       [255, 218, 1, 2, 3]]
     [255, 218, 1, 2, 3]
     ((S2P.EXIF.embedJPEGMetadata {}
        ([255, 216] ++ ([255, 224, 0, 16] ++ [74, 70, 73, 70, 0, 1, 1, 0, 0, 1, 0, 1, 0, 0]) ++
          ([255, 218] ++ [1, 2, 3]))
        S2P.sampleRecord {}).toOption.getD [])
     (by rfl) rfl rfl rfl (by rfl)⟩
